import Mathlib

/-!
Shallow embedding of `standard_judge.py`: the orchestration state machine of
the LiveCodeBench-Pro standard judge (credential caching, input preparation,
per-item submission, verdict polling, output upload, run-status reporting).

External effects (HTTP calls, the judge backend, the GCP metadata server,
code extraction from `util`) are determinized by a `World` record; every
operation threads an explicit state `St` carrying the cached token, the wall
clock, per-endpoint call counters and a trace of observable effects.
-/

namespace StandardJudge

/-- The two `SupportedLanguage` values used by `detect_language`
(imported from `judge` in `standard_judge.py`). -/
inductive SupportedLanguage where
  | CPP
  | PYPY
  deriving DecidableEq

/-- Outcome of one `judge.submit(problem_id, language, code)` call: a
submission id, a `ProblemNotFoundError`, or any other exception
(`standard_judge.py` lines 125-134). -/
inductive SubmitOutcome where
  | ok (sid : Nat)
  | problemNotFound
  | err (msg : String)
  deriving DecidableEq

/-- One wire-format item record: the pydantic model `BenchmarkResult`
(`standard_judge.py` lines 33-41).  `response_meta` is `typing.Any` and is
modelled as an optional string.  `submission_id` is not a field of this
model (pydantic drops the extra key when a `ProblemTestState` dump is passed
in, its default `extra` behaviour). -/
structure BenchmarkResult where
  problem_id : String
  problem_title : String
  difficulty : String
  platform : String
  text_response : String
  code : Option String := none
  judge_result : String := "Judging"
  response_meta : Option String := none
  deriving DecidableEq

/-- The in-memory per-item state: the pydantic model `ProblemTestState`
(`standard_judge.py` lines 43-52).  `submission_id : int | None` becomes
`Option Nat`. -/
structure ProblemTestState where
  problem_id : String
  problem_title : String
  difficulty : String
  platform : String
  text_response : Option String := none
  code : Option String := none
  submission_id : Option Nat := none
  judge_result : String := "Judging"
  response_meta : Option String := none
  deriving DecidableEq

/-- Observable external effects of a run, in order of occurrence.
`tokenFetchAttempt` is the GET to the metadata server (whether or not it
succeeds); `statusPut` / `logPost` / `uploadPut` are recorded when the
request is issued, before `raise_for_status` is consulted. -/
inductive Event where
  | tokenFetchAttempt (idx : Nat)
  | tokenFetched (idx : Nat)
  | inputFetched
  | statusPut (status : String)
  | logPost (msg : String)
  | submitCall (idx : Nat) (pid : String) (lang : SupportedLanguage) (code : String)
  | pollCall (sid : Nat)
  | sleep
  | uploadPut (results : List BenchmarkResult)
  deriving DecidableEq

/-- Failure conditions (Python exceptions) that can escape an operation. -/
inductive Err where
  | tokenFetchFailed
  | inputJsonFailed
  | outputUrlFailed
  | outputPutFailed
  | statusFailed
  | logFailed
  deriving DecidableEq

/-- Determinized behaviour of the outside world.

* `tokenFetch n` — result of the `n`-th GET to the metadata server: the
  decoded `exp` claim of the returned token, or `none` when the request
  fails (`raise_for_status` raises).
* `inputStatus` — HTTP status code of the `input_file` GET.  Note that
  `prepare_inputs` never calls `raise_for_status`, so the embedding of that
  function does not consult this field.
* `inputBody` — the response body of the `input_file` GET parsed as a list
  of records, or `none` when `response.json()` / record validation raises.
* `outputUrlOk` / `outputPutOk` — whether the `output_file` GET and the
  destination PUT pass `raise_for_status`.
* `statusOk n` / `logOk n` — whether the `n`-th status PUT / log POST
  passes `raise_for_status`.
* `submit i pid lang code` — outcome of `judge.submit` for the item at
  batch index `i` with the given arguments.
* `poll sid n` — verdict string returned by the `n`-th
  `judge.get_result(sid)` call of one polling loop.
* `extractCpp` / `extractPy` — modelled from the spec: the best-effort
  extraction helpers `extract_longest_cpp_code` / `extract_python_code`
  live in `util`, which is not part of this repository snapshot; they are
  kept abstract (`none` / empty string model a failed extraction, matching
  Python falsiness).
* `tracebackOf` — the `traceback.format_exc()` string produced when the
  error with the given description is caught. -/
structure World where
  tokenFetch : Nat → Option Int
  inputStatus : Nat
  inputBody : Option (List BenchmarkResult)
  outputUrlOk : Bool
  outputPutOk : Bool
  statusOk : Nat → Bool
  logOk : Nat → Bool
  submit : Nat → String → SupportedLanguage → String → SubmitOutcome
  poll : Nat → Nat → String
  extractCpp : String → Option String
  extractPy : String → Option String
  tracebackOf : String → String

/-- A cached bearer token: its decoded `exp` claim paired with the index of
the metadata fetch that produced it (so distinct fetches yield
distinguishable tokens). -/
abbrev Token := Int × Nat

/-- Process state threaded through every operation: the module-level
`token` global, the wall clock (`time.time()`), how many metadata fetches /
status PUTs / log POSTs have been issued so far, and the effect trace. -/
structure St where
  token : Option Token
  now : Int
  fetches : Nat
  statusCalls : Nat
  logCalls : Nat
  trace : List Event

/-- State at interpreter start: `token = None`, nothing issued yet. -/
def initSt : St :=
  { token := none, now := 0, fetches := 0, statusCalls := 0, logCalls := 0,
    trace := [] }

/-- Python falsiness of a `str | None` value: `None` and `""` are falsy. -/
def falsyStr : Option String → Bool
  | none => true
  | some s => s == ""

/-- Python falsiness of an `int | None` value: `None` and `0` are falsy. -/
def falsySid : Option Nat → Bool
  | none => true
  | some n => n == 0

/-- Python `a or b` on optional strings: yields `a` when `a` is truthy,
otherwise `b` (even when `b` is itself falsy). -/
def pyOr (a b : Option String) : Option String :=
  match a with
  | some s => if s == "" then b else some s
  | none => b

/-- `ProblemTestState(**item.model_dump())` on a `BenchmarkResult`
(`standard_judge.py` line 67): all shared fields are copied,
`submission_id` takes its default `None`. -/
def toState (b : BenchmarkResult) : ProblemTestState :=
  { problem_id := b.problem_id, problem_title := b.problem_title,
    difficulty := b.difficulty, platform := b.platform,
    text_response := some b.text_response, code := b.code,
    submission_id := none, judge_result := b.judge_result,
    response_meta := b.response_meta }

/-- `BenchmarkResult(**item.model_dump())` on a `ProblemTestState`
(`standard_judge.py` line 144): the extra `submission_id` key is dropped by
pydantic, every other field is copied.  In `main` this is only applied to
states whose `text_response` was populated by `prepare_inputs`, so the
`getD ""` default for a missing `text_response` is never exercised. -/
def toBenchmarkResult (p : ProblemTestState) : BenchmarkResult :=
  { problem_id := p.problem_id, problem_title := p.problem_title,
    difficulty := p.difficulty, platform := p.platform,
    text_response := p.text_response.getD "",
    code := p.code, judge_result := p.judge_result,
    response_meta := p.response_meta }

/-- Human-readable description (`str(e)`) of each failure condition. -/
def errMsg : Err → String
  | Err.tokenFetchFailed => "metadata server token fetch failed"
  | Err.inputJsonFailed => "input response body is not a valid record list"
  | Err.outputUrlFailed => "output upload URL request failed"
  | Err.outputPutFailed => "output upload PUT failed"
  | Err.statusFailed => "status update request failed"
  | Err.logFailed => "append log request failed"

/-- The log line built by the `__main__` handler (`standard_judge.py`
line 155): `f"Python error: {e}, Traceback: {traceback_str}"`. -/
def mkErrorLog (w : World) (e : Err) : String :=
  "Python error: " ++ errMsg e ++ ", Traceback: " ++ w.tracebackOf (errMsg e)

/-- The fetch half of `get_oidc_token` (`standard_judge.py` lines 25-31):
GET the metadata server, `raise_for_status`, cache and return the token. -/
def fetchToken (w : World) (s : St) : St × Except Err Token :=
  let s1 : St :=
    { s with fetches := s.fetches + 1,
             trace := s.trace ++ [Event.tokenFetchAttempt s.fetches] }
  match w.tokenFetch s.fetches with
  | none => (s1, Except.error Err.tokenFetchFailed)
  | some exp =>
      ({ s1 with token := some (exp, s.fetches),
                 trace := s1.trace ++ [Event.tokenFetched s.fetches] },
       Except.ok (exp, s.fetches))

/-- `get_oidc_token` (`standard_judge.py` lines 21-31): return the cached
token when it is truthy and its decoded expiry is more than 60 seconds in
the future, otherwise fetch a fresh one. -/
def get_oidc_token (w : World) (s : St) : St × Except Err Token :=
  match s.token with
  | some t => if t.1 > s.now + 60 then (s, Except.ok t) else fetchToken w s
  | none => fetchToken w s

/-- The per-record body of the `prepare_inputs` loop (`standard_judge.py`
lines 64-66): validate as `BenchmarkResult`, and when `code` is falsy
derive it as `extract_longest_cpp_code(...) or extract_python_code(...)`. -/
def deriveCode (w : World) (b : BenchmarkResult) : BenchmarkResult :=
  if falsyStr b.code then
    { b with code := pyOr (w.extractCpp b.text_response)
                          (w.extractPy b.text_response) }
  else b

/-- The full list produced by `prepare_inputs` from a parsed response body. -/
def prepList (w : World) (raw : List BenchmarkResult) : List ProblemTestState :=
  raw.map (fun b => toState (deriveCode w b))

/-- `prepare_inputs` (`standard_judge.py` lines 54-69): GET the input file
with a bearer token, parse the JSON body, derive missing `code` fields.
Faithfully to the source, the HTTP status of the response is never checked
(there is no `raise_for_status` call here); the call fails only when the
token fetch fails or the body cannot be parsed as a record list. -/
def prepare_inputs (w : World) (s : St) :
    St × Except Err (List ProblemTestState) :=
  match get_oidc_token w s with
  | (s1, Except.error e) => (s1, Except.error e)
  | (s1, Except.ok _) =>
    let s2 : St := { s1 with trace := s1.trace ++ [Event.inputFetched] }
    match w.inputBody with
    | none => (s2, Except.error Err.inputJsonFailed)
    | some raw => (s2, Except.ok (prepList w raw))

/-- `update_status` (`standard_judge.py` lines 91-99): PUT the new status
with a bearer token, then `raise_for_status`. -/
def update_status (w : World) (status : String) (s : St) :
    St × Except Err Unit :=
  match get_oidc_token w s with
  | (s1, Except.error e) => (s1, Except.error e)
  | (s1, Except.ok _) =>
    let s2 : St :=
      { s1 with statusCalls := s1.statusCalls + 1,
                trace := s1.trace ++ [Event.statusPut status] }
    if w.statusOk s1.statusCalls then (s2, Except.ok ())
    else (s2, Except.error Err.statusFailed)

/-- `append_log` (`standard_judge.py` lines 101-109): POST one log line
with a bearer token, then `raise_for_status`. -/
def append_log (w : World) (msg : String) (s : St) : St × Except Err Unit :=
  match get_oidc_token w s with
  | (s1, Except.error e) => (s1, Except.error e)
  | (s1, Except.ok _) =>
    let s2 : St :=
      { s1 with logCalls := s1.logCalls + 1,
                trace := s1.trace ++ [Event.logPost msg] }
    if w.logOk s1.logCalls then (s2, Except.ok ())
    else (s2, Except.error Err.logFailed)

/-- `upload_output` (`standard_judge.py` lines 71-89): GET the upload URL
with a bearer token (`raise_for_status`), then PUT the serialized results
to it (`raise_for_status`). -/
def upload_output (w : World) (results : List BenchmarkResult) (s : St) :
    St × Except Err Unit :=
  match get_oidc_token w s with
  | (s1, Except.error e) => (s1, Except.error e)
  | (s1, Except.ok _) =>
    if w.outputUrlOk then
      let s2 : St := { s1 with trace := s1.trace ++ [Event.uploadPut results] }
      if w.outputPutOk then (s2, Except.ok ())
      else (s2, Except.error Err.outputPutFailed)
    else (s1, Except.error Err.outputUrlFailed)

/-- `detect_language` (`standard_judge.py` lines 111-114): C++ exactly when
the stripped program text starts with `"#include"`, PyPy otherwise. -/
def detect_language (code : String) : SupportedLanguage :=
  if (code.trim).startsWith "#include" then SupportedLanguage.CPP
  else SupportedLanguage.PYPY

/-- One iteration of the submit loop body (`standard_judge.py` lines
120-134): skip falsy `code` with `judge_result = "Judge Failed"`, otherwise
submit and either record the submission id or mark `"Judge Failed"` on
`ProblemNotFoundError` / any other exception. -/
def submitItem (w : World) (idx : Nat) (item : ProblemTestState) (s : St) :
    St × ProblemTestState :=
  if falsyStr item.code then
    (s, { item with judge_result := "Judge Failed" })
  else
    ({ s with trace := s.trace ++ [Event.submitCall idx item.problem_id
        (detect_language (item.code.getD "")) (item.code.getD "")] },
     match w.submit idx item.problem_id
         (detect_language (item.code.getD "")) (item.code.getD "") with
     | SubmitOutcome.ok sid => { item with submission_id := some sid }
     | SubmitOutcome.problemNotFound => { item with judge_result := "Judge Failed" }
     | SubmitOutcome.err _ => { item with judge_result := "Judge Failed" })

/-- The item record produced by one submit-loop iteration; it does not
depend on the interpreter state. -/
def submitPure (w : World) (idx : Nat) (item : ProblemTestState) :
    ProblemTestState :=
  if falsyStr item.code then { item with judge_result := "Judge Failed" }
  else
    match w.submit idx item.problem_id
        (detect_language (item.code.getD "")) (item.code.getD "") with
    | SubmitOutcome.ok sid => { item with submission_id := some sid }
    | SubmitOutcome.problemNotFound => { item with judge_result := "Judge Failed" }
    | SubmitOutcome.err _ => { item with judge_result := "Judge Failed" }

/-- The submit phase (`standard_judge.py` lines 120-134): one sequential
pass over all items, in order, starting at batch index `idx`. -/
def submitPhase (w : World) : Nat → List ProblemTestState → St →
    St × List ProblemTestState
  | _, [], s => (s, [])
  | idx, item :: rest, s =>
    match submitItem w idx item s with
    | (s1, item1) =>
      match submitPhase w (idx + 1) rest s1 with
      | (s2, rest1) => (s2, item1 :: rest1)

/-- The `while True` polling loop (`standard_judge.py` lines 139-143),
with explicit fuel: call `judge.get_result`, stop on any value other than
`"Judging"`, otherwise `time.sleep(1)` and retry.  `none` models a loop
that has not terminated within the given fuel. -/
def pollLoop (w : World) (sid : Nat) : Nat → Nat → St → St × Option String
  | 0, _, s => (s, none)
  | fuel + 1, attempt, s =>
    if w.poll sid attempt == "Judging" then
      pollLoop w sid fuel (attempt + 1)
        { s with now := s.now + 1,
                 trace := s.trace ++ [Event.pollCall sid, Event.sleep] }
    else
      ({ s with trace := s.trace ++ [Event.pollCall sid] },
       some (w.poll sid attempt))

/-- State-free version of `pollLoop`: just the value it returns. -/
def pollLoopPure (w : World) (sid : Nat) : Nat → Nat → Option String
  | 0, _ => none
  | fuel + 1, attempt =>
    let r := w.poll sid attempt
    if r == "Judging" then pollLoopPure w sid fuel (attempt + 1) else some r

/-- One iteration of the poll loop over items (`standard_judge.py` lines
135-143): the falsy check `if not item.submission_id` skips both `None`
and `0`; otherwise the blocking loop stores the first non-`"Judging"`
verdict into `judge_result`. -/
def pollItem (w : World) (fuel : Nat) (item : ProblemTestState) (s : St) :
    St × Option ProblemTestState :=
  if falsySid item.submission_id then (s, some item)
  else
    match pollLoop w (item.submission_id.getD 0) fuel 0 s with
    | (s1, some verdict) => (s1, some { item with judge_result := verdict })
    | (s1, none) => (s1, none)

/-- State-free version of `pollItem`: the item record it produces, or
`none` when its loop does not terminate within the fuel. -/
def pollPure (w : World) (fuel : Nat) (item : ProblemTestState) :
    Option ProblemTestState :=
  if falsySid item.submission_id then some item
  else
    match pollLoopPure w (item.submission_id.getD 0) fuel 0 with
    | some verdict => some { item with judge_result := verdict }
    | none => none

/-- The poll phase (`standard_judge.py` lines 135-143): one sequential pass
over all items, after all submissions were attempted; `none` when some
item's loop does not terminate within the fuel. -/
def pollPhase (w : World) (fuel : Nat) : List ProblemTestState → St →
    St × Option (List ProblemTestState)
  | [], s => (s, some [])
  | item :: rest, s =>
    match pollItem w fuel item s with
    | (s1, none) => (s1, none)
    | (s1, some item1) =>
      match pollPhase w fuel rest s1 with
      | (s2, none) => (s2, none)
      | (s2, some rest1) => (s2, some (item1 :: rest1))

/-- Result of `main()`: normal return with the uploaded results, a raised
exception, or an infinite poll loop (fuel exhaustion). -/
inductive MainOut where
  | finished (results : List BenchmarkResult)
  | raised (e : Err)
  | hung
  deriving DecidableEq

/-- `main()` (`standard_judge.py` lines 116-145): load inputs, report
`"running"`, submit all, poll all, build the output batch, upload it. -/
def main (w : World) (fuel : Nat) (s : St) : St × MainOut :=
  match prepare_inputs w s with
  | (s1, Except.error e) => (s1, MainOut.raised e)
  | (s1, Except.ok inputs) =>
    match update_status w "running" s1 with
    | (s2, Except.error e) => (s2, MainOut.raised e)
    | (s2, Except.ok _) =>
      match pollPhase w fuel (submitPhase w 0 inputs s2).2
          (submitPhase w 0 inputs s2).1 with
      | (s4, none) => (s4, MainOut.hung)
      | (s4, some inputs2) =>
        match upload_output w (inputs2.map toBenchmarkResult) s4 with
        | (s5, Except.error e) => (s5, MainOut.raised e)
        | (s5, Except.ok _) =>
            (s5, MainOut.finished (inputs2.map toBenchmarkResult))

/-- How the process exits: normally, by crashing with an unhandled
exception (one escaping the `except` block itself), or hanging in the
poll loop. -/
inductive TopOut where
  | cleanExit
  | crashed (e : Err)
  | hung
  deriving DecidableEq

/-- The `except Exception` block of `__main__` (`standard_judge.py` lines
151-156): append one log entry with the error description and traceback,
then report status `"failed"`.  A failure of either call is itself
unhandled and crashes the process. -/
def handleFailure (w : World) (e : Err) (s : St) : St × TopOut :=
  match append_log w (mkErrorLog w e) s with
  | (s1, Except.error e2) => (s1, TopOut.crashed e2)
  | (s1, Except.ok _) =>
    match update_status w "failed" s1 with
    | (s2, Except.error e2) => (s2, TopOut.crashed e2)
    | (s2, Except.ok _) => (s2, TopOut.cleanExit)

/-- The `__main__` block (`standard_judge.py` lines 147-156): run `main`,
then report `"finished"`; any exception from either is handled once by
`handleFailure`. -/
def topLevel (w : World) (fuel : Nat) : St × TopOut :=
  match main w fuel initSt with
  | (s1, MainOut.hung) => (s1, TopOut.hung)
  | (s1, MainOut.raised e) => handleFailure w e s1
  | (s1, MainOut.finished _) =>
    match update_status w "finished" s1 with
    | (s2, Except.error e) => handleFailure w e s2
    | (s2, Except.ok _) => (s2, TopOut.cleanExit)

/-- Number of trace events satisfying `p`. -/
def count (p : Event → Bool) (l : List Event) : Nat := (l.filter p).length

/-- Token-fetch events (either constructor). -/
def isTokenEv : Event → Bool
  | Event.tokenFetchAttempt _ => true
  | Event.tokenFetched _ => true
  | _ => false

/-- Status PUTs carrying exactly the value `v`. -/
def isStatusV (v : String) : Event → Bool
  | Event.statusPut u => u == v
  | _ => false

/-- Log POSTs (any message). -/
def isLog : Event → Bool
  | Event.logPost _ => true
  | _ => false

/-- Submit calls for the item at batch index `i`. -/
def isSubmitAt (i : Nat) : Event → Bool
  | Event.submitCall j _ _ _ => j == i
  | _ => false

/-- Submit calls for any item. -/
def isSubmitEv : Event → Bool
  | Event.submitCall _ _ _ _ => true
  | _ => false

/-- Poll calls for submission id `k`. -/
def isPollAt (k : Nat) : Event → Bool
  | Event.pollCall j => j == k
  | _ => false

/-- Poll calls for any submission id. -/
def isPollEv : Event → Bool
  | Event.pollCall _ => true
  | _ => false

/-- The trace segment of one terminating polling loop that saw `n`
`"Judging"` answers first: `n` poll/sleep pairs followed by the final
poll. -/
def pollDelta (sid : Nat) : Nat → List Event
  | 0 => [Event.pollCall sid]
  | n + 1 => Event.pollCall sid :: Event.sleep :: pollDelta sid n

/-- Predicates that ignore every event `main` can emit except status PUTs
and log POSTs; the counting lemmas about whole phases are stated for such
predicates.  The poll clause only requires ignoring nonzero submission ids
because the poll loop is never entered for a falsy (`None` or `0`)
submission id. -/
def PhaseQuiet (p : Event → Bool) : Prop :=
  (∀ n, p (Event.tokenFetchAttempt n) = false) ∧
  (∀ n, p (Event.tokenFetched n) = false) ∧
  p Event.inputFetched = false ∧
  (∀ i pid lang code, p (Event.submitCall i pid lang code) = false) ∧
  (∀ k, k ≠ 0 → p (Event.pollCall k) = false) ∧
  p Event.sleep = false ∧
  (∀ rs, p (Event.uploadPut rs) = false)

/-- A sample input record with embedded C++ code. -/
def itemCpp : BenchmarkResult :=
  { problem_id := "1000A", problem_title := "Theatre Square",
    difficulty := "easy", platform := "codeforces",
    text_response := "solution text", code := some "#include <iostream>" }

/-- A second sample record with Python code. -/
def itemPy : BenchmarkResult :=
  { problem_id := "1000B", problem_title := "Watermelon",
    difficulty := "easy", platform := "codeforces",
    text_response := "solution text", code := some "print(1)" }

/-- A sample record with no code and nothing extractable. -/
def itemNoCode : BenchmarkResult :=
  { problem_id := "1000C", problem_title := "No Code",
    difficulty := "hard", platform := "codeforces",
    text_response := "no code here", code := none }

/-- A fully healthy world: every endpoint succeeds, every submission gets a
positive id, the first poll already returns a terminal verdict. -/
def wBase : World :=
  { tokenFetch := fun _ => some 100000
    inputStatus := 200
    inputBody := some []
    outputUrlOk := true
    outputPutOk := true
    statusOk := fun _ => true
    logOk := fun _ => true
    submit := fun i _ _ _ => SubmitOutcome.ok (i + 1)
    poll := fun _ _ => "Accepted"
    extractCpp := fun _ => none
    extractPy := fun _ => none
    tracebackOf := fun m => "Traceback (most recent call last): " ++ m }

/-- Healthy world with a two-item batch. -/
def wGood : World := { wBase with inputBody := some [itemCpp, itemNoCode] }

/-- World whose metadata server fails on the very first call only. -/
def wCred : World :=
  { wBase with tokenFetch := fun n => if n == 0 then none else some 100000 }

/-- World whose metadata server fails on every call. -/
def wAllFail : World := { wBase with tokenFetch := fun _ => none }

/-- World whose `input_file` GET answers 500 with a body that is
nevertheless a valid record list. -/
def wBadStatus : World :=
  { wBase with inputStatus := 500, inputBody := some [itemCpp] }

/-- World whose `input_file` body cannot be parsed. -/
def wNoJson : World := { wBase with inputBody := none }

/-- World whose judge reports submission id `0` for every submission. -/
def wZero : World :=
  { wBase with inputBody := some [itemCpp],
               submit := fun _ _ _ _ => SubmitOutcome.ok 0 }

/-- World whose judge knows no problem with index 0 but accepts index 1. -/
def wNotFound : World :=
  { wBase with inputBody := some [itemCpp, itemPy],
               submit := fun i _ _ _ =>
                 if i == 0 then SubmitOutcome.problemNotFound
                 else SubmitOutcome.ok 7 }

/-- World with a single-item batch. -/
def wC4 : World := { wBase with inputBody := some [itemNoCode] }

/-- World whose judge answers `"Judging"` twice before a verdict. -/
def wSlow : World :=
  { wBase with inputBody := some [itemCpp],
               poll := fun _ n => if n < 2 then "Judging" else "Accepted" }

/-- A prepared item that already carries a (nonzero) submission id, as the
poll phase sees it. -/
def itemPolled : ProblemTestState :=
  { toState itemCpp with submission_id := some 9 }

/-- World used with `itemPolled`: two `"Judging"` answers, then a verdict. -/
def wSlow9 : World :=
  { wBase with poll := fun _ n => if n < 2 then "Judging" else "Wrong Answer" }

theorem count_cons (p : Event → Bool) (e : Event) (l : List Event) :
    count p (e :: l) = (if p e then 1 else 0) + count p l := by
  cases hp : p e
  · simp [count, List.filter, hp]
  · simp [count, List.filter, hp]
    omega

theorem count_nil (p : Event → Bool) : count p [] = 0 := rfl

theorem count_append (p : Event → Bool) (l1 l2 : List Event) :
    count p (l1 ++ l2) = count p l1 + count p l2 := by
  simp [count, List.filter_append]

theorem count_single (p : Event → Bool) (e : Event) :
    count p [e] = if p e then 1 else 0 := by
  cases hp : p e <;> simp [count, List.filter, hp]

theorem count_eq_zero (p : Event → Bool) (l : List Event)
    (h : ∀ e ∈ l, p e = false) : count p l = 0 := by
  induction l with
  | nil => rfl
  | cons a t ih =>
    rw [count_cons, h a (List.mem_cons_self a t),
      ih (fun e he => h e (List.mem_cons_of_mem a he))]
    simp

theorem count_fetchToken (w : World) (s : St) (p : Event → Bool)
    (h1 : ∀ n, p (Event.tokenFetchAttempt n) = false)
    (h2 : ∀ n, p (Event.tokenFetched n) = false) :
    count p (fetchToken w s).1.trace = count p s.trace := by
  unfold fetchToken
  cases hw : w.tokenFetch s.fetches <;>
    simp [count_append, count_cons, count_nil, count_single, h1, h2]

theorem count_get_token (w : World) (s : St) (p : Event → Bool)
    (h1 : ∀ n, p (Event.tokenFetchAttempt n) = false)
    (h2 : ∀ n, p (Event.tokenFetched n) = false) :
    count p (get_oidc_token w s).1.trace = count p s.trace := by
  unfold get_oidc_token
  cases hst : s.token with
  | none => exact count_fetchToken w s p h1 h2
  | some t =>
    by_cases ht : t.1 > s.now + 60
    · simp [ht]
    · simp only [ht, if_false, ite_false]
      exact count_fetchToken w s p h1 h2

theorem count_prepare (w : World) (s : St) (p : Event → Bool)
    (h1 : ∀ n, p (Event.tokenFetchAttempt n) = false)
    (h2 : ∀ n, p (Event.tokenFetched n) = false)
    (h3 : p Event.inputFetched = false) :
    count p (prepare_inputs w s).1.trace = count p s.trace := by
  unfold prepare_inputs
  rcases hg : get_oidc_token w s with ⟨s1, r⟩
  have hc : count p s1.trace = count p s.trace := by
    have h := count_get_token w s p h1 h2
    rw [hg] at h; exact h
  cases r with
  | error e => exact hc
  | ok t =>
    cases hb : w.inputBody <;>
      simp [count_append, count_single, h3, hc]

theorem count_update_status (w : World) (v : String) (s : St) (p : Event → Bool)
    (h1 : ∀ n, p (Event.tokenFetchAttempt n) = false)
    (h2 : ∀ n, p (Event.tokenFetched n) = false)
    (hv : p (Event.statusPut v) = false) :
    count p (update_status w v s).1.trace = count p s.trace := by
  unfold update_status
  rcases hg : get_oidc_token w s with ⟨s1, r⟩
  have hc : count p s1.trace = count p s.trace := by
    have h := count_get_token w s p h1 h2
    rw [hg] at h; exact h
  cases r with
  | error e => exact hc
  | ok t =>
    cases hok : w.statusOk s1.statusCalls <;>
      simp [hok, count_append, count_single, hv, hc]

theorem count_upload (w : World) (rs : List BenchmarkResult) (s : St)
    (p : Event → Bool)
    (h1 : ∀ n, p (Event.tokenFetchAttempt n) = false)
    (h2 : ∀ n, p (Event.tokenFetched n) = false)
    (hu : ∀ l, p (Event.uploadPut l) = false) :
    count p (upload_output w rs s).1.trace = count p s.trace := by
  unfold upload_output
  rcases hg : get_oidc_token w s with ⟨s1, r⟩
  have hc : count p s1.trace = count p s.trace := by
    have h := count_get_token w s p h1 h2
    rw [hg] at h; exact h
  cases r with
  | error e => exact hc
  | ok t =>
    cases hok : w.outputUrlOk
    · simp [hok, hc]
    · cases hok2 : w.outputPutOk <;>
        simp [hok, hok2, count_append, count_single, hu, hc]

theorem count_submitItem (w : World) (idx : Nat) (item : ProblemTestState)
    (s : St) (p : Event → Bool)
    (hs : ∀ i pid lang code, p (Event.submitCall i pid lang code) = false) :
    count p (submitItem w idx item s).1.trace = count p s.trace := by
  unfold submitItem
  cases hf : falsyStr item.code <;>
    simp [count_append, count_single, hs, hf]

theorem count_submitPhase (w : World) (p : Event → Bool)
    (hs : ∀ i pid lang code, p (Event.submitCall i pid lang code) = false) :
    ∀ (items : List ProblemTestState) (idx : Nat) (s : St),
      count p (submitPhase w idx items s).1.trace = count p s.trace := by
  intro items
  induction items with
  | nil => intro idx s; rfl
  | cons a t ih =>
    intro idx s
    simp only [submitPhase]
    rcases hsi : submitItem w idx a s with ⟨s1, a1⟩
    rcases hsp : submitPhase w (idx + 1) t s1 with ⟨s2, t1⟩
    have hstep : count p s1.trace = count p s.trace := by
      have h := count_submitItem w idx a s p hs
      rw [hsi] at h; exact h
    have hrest : count p s2.trace = count p s1.trace := by
      have h := ih (idx + 1) s1
      rw [hsp] at h; exact h
    simp [hrest, hstep]

theorem count_pollLoop_ne (w : World) (sid : Nat) (p : Event → Bool)
    (hp : p (Event.pollCall sid) = false) (hsl : p Event.sleep = false) :
    ∀ (fuel attempt : Nat) (s : St),
      count p (pollLoop w sid fuel attempt s).1.trace = count p s.trace := by
  intro fuel
  induction fuel with
  | zero => intro attempt s; rfl
  | succ f ih =>
    intro attempt s
    simp only [pollLoop]
    cases hr : (w.poll sid attempt == "Judging")
    · simp [hr, count_append, count_single, hp]
    · simp only [hr, ite_true]
      rw [ih]
      simp [count_append, count_cons, count_nil, count_single, hp, hsl]

theorem count_pollItem_gen (w : World) (fuel : Nat) (item : ProblemTestState)
    (s : St) (p : Event → Bool) (hsl : p Event.sleep = false)
    (hp : ∀ k, k ≠ 0 → p (Event.pollCall k) = false) :
    count p (pollItem w fuel item s).1.trace = count p s.trace := by
  unfold pollItem
  cases hf : falsySid item.submission_id with
  | true => simp
  | false =>
    have hsid : item.submission_id.getD 0 ≠ 0 := by
      cases hs2 : item.submission_id with
      | none => rw [hs2] at hf; simp [falsySid] at hf
      | some n =>
        rw [hs2] at hf
        simp only [falsySid] at hf
        simpa using hf
    have h := count_pollLoop_ne w (item.submission_id.getD 0) p
      (hp _ hsid) hsl fuel 0 s
    rcases hpl : pollLoop w (item.submission_id.getD 0) fuel 0 s with ⟨s1, r⟩
    rw [hpl] at h
    cases r <;> simpa using h

theorem count_pollPhase_gen (w : World) (fuel : Nat) (p : Event → Bool)
    (hsl : p Event.sleep = false)
    (hp : ∀ k, k ≠ 0 → p (Event.pollCall k) = false) :
    ∀ (items : List ProblemTestState) (s : St),
      count p (pollPhase w fuel items s).1.trace = count p s.trace := by
  intro items
  induction items with
  | nil => intro s; rfl
  | cons a t ih =>
    intro s
    simp only [pollPhase]
    split
    next s1 heq =>
      have h := count_pollItem_gen w fuel a s p hsl hp
      rw [heq] at h; exact h
    next s1 a1 heq =>
      have hstep : count p s1.trace = count p s.trace := by
        have h := count_pollItem_gen w fuel a s p hsl hp
        rw [heq] at h; exact h
      split
      next s2 heq2 =>
        have h := ih s1
        rw [heq2] at h
        simpa [h] using hstep
      next s2 rest1 heq2 =>
        have h := ih s1
        rw [heq2] at h
        simpa [h] using hstep

theorem count_main (w : World) (fuel : Nat) (s : St) (p : Event → Bool)
    (hq : PhaseQuiet p) (hrun : p (Event.statusPut "running") = false) :
    count p (main w fuel s).1.trace = count p s.trace := by
  obtain ⟨h1, h2, h3, h4, h5, h6, h7⟩ := hq
  unfold main
  split
  next s1 e heq =>
    have h := count_prepare w s p h1 h2 h3
    rw [heq] at h; exact h
  next s1 inputs heq =>
    have hc1 : count p s1.trace = count p s.trace := by
      have h := count_prepare w s p h1 h2 h3
      rw [heq] at h; exact h
    split
    next s2 e heq2 =>
      have h := count_update_status w "running" s1 p h1 h2 hrun
      rw [heq2] at h
      simp [h, hc1]
    next s2 u heq2 =>
      have hc2 : count p s2.trace = count p s1.trace := by
        have h := count_update_status w "running" s1 p h1 h2 hrun
        rw [heq2] at h; exact h
      have hc3 : count p (submitPhase w 0 inputs s2).1.trace = count p s2.trace :=
        count_submitPhase w p h4 inputs 0 s2
      split
      next s4 heq3 =>
        have h := count_pollPhase_gen w fuel p h6 h5
          (submitPhase w 0 inputs s2).2 (submitPhase w 0 inputs s2).1
        rw [heq3] at h
        simp [h, hc3, hc2, hc1]
      next s4 inputs2 heq3 =>
        have hc4 : count p s4.trace = count p (submitPhase w 0 inputs s2).1.trace := by
          have h := count_pollPhase_gen w fuel p h6 h5
            (submitPhase w 0 inputs s2).2 (submitPhase w 0 inputs s2).1
          rw [heq3] at h; exact h
        split
        next s5 e heq4 =>
          have h := count_upload w (inputs2.map toBenchmarkResult) s4 p h1 h2 h7
          rw [heq4] at h
          simp [h, hc4, hc3, hc2, hc1]
        next s5 u2 heq4 =>
          have h := count_upload w (inputs2.map toBenchmarkResult) s4 p h1 h2 h7
          rw [heq4] at h
          simp [h, hc4, hc3, hc2, hc1]

theorem fetchToken_ok (w : World) (s : St) (exp : Int)
    (hexp : w.tokenFetch s.fetches = some exp) :
    fetchToken w s =
      ({ s with
           token := some (exp, s.fetches)
           fetches := s.fetches + 1
           trace := s.trace ++ [Event.tokenFetchAttempt s.fetches,
             Event.tokenFetched s.fetches] },
       Except.ok (exp, s.fetches)) := by
  obtain ⟨tok, now, fe, sc, lc, tr⟩ := s
  simp only [fetchToken] at *
  simp [hexp]

theorem get_token_none (w : World) (s : St) (hst : s.token = none) :
    get_oidc_token w s = fetchToken w s := by
  unfold get_oidc_token
  rw [hst]

theorem get_token_stale (w : World) (s : St) (t : Token)
    (hst : s.token = some t) (ht : ¬t.1 > s.now + 60) :
    get_oidc_token w s = fetchToken w s := by
  unfold get_oidc_token
  rw [hst]
  exact if_neg ht

theorem get_token_cached (w : World) (s : St) (t : Token)
    (hst : s.token = some t) (ht : t.1 > s.now + 60) :
    get_oidc_token w s = (s, Except.ok t) := by
  unfold get_oidc_token
  rw [hst]
  exact if_pos ht

theorem get_token_ok (w : World) (s : St)
    (h : (w.tokenFetch s.fetches).isSome = true) :
    ∃ t s2 d, get_oidc_token w s = (s2, Except.ok t) ∧
      s2.trace = s.trace ++ d ∧ (∀ e ∈ d, isTokenEv e = true) ∧
      s2.statusCalls = s.statusCalls ∧ s2.logCalls = s.logCalls ∧
      s2.now = s.now ∧ s.fetches ≤ s2.fetches := by
  obtain ⟨exp, hexp⟩ := Option.isSome_iff_exists.mp h
  have hft := fetchToken_ok w s exp hexp
  cases hst : s.token with
  | none =>
    rw [get_token_none w s hst, hft]
    exact ⟨(exp, s.fetches), _,
      [Event.tokenFetchAttempt s.fetches, Event.tokenFetched s.fetches],
      rfl, rfl, by simp [isTokenEv], rfl, rfl, rfl, by simp⟩
  | some t =>
    by_cases ht : t.1 > s.now + 60
    · rw [get_token_cached w s t hst ht]
      exact ⟨t, s, [], rfl, by simp, by simp, rfl, rfl, rfl, le_refl _⟩
    · rw [get_token_stale w s t hst ht, hft]
      exact ⟨(exp, s.fetches), _,
        [Event.tokenFetchAttempt s.fetches, Event.tokenFetched s.fetches],
        rfl, rfl, by simp [isTokenEv], rfl, rfl, rfl, by simp⟩

theorem update_status_ok (w : World) (v : String) (s : St)
    (ht : (w.tokenFetch s.fetches).isSome = true)
    (hs : ∀ n, w.statusOk n = true) :
    ∃ s2 d, update_status w v s = (s2, Except.ok ()) ∧
      s2.trace = s.trace ++ d ++ [Event.statusPut v] ∧
      (∀ e ∈ d, isTokenEv e = true) ∧
      s2.logCalls = s.logCalls ∧ s2.now = s.now ∧ s.fetches ≤ s2.fetches := by
  obtain ⟨t, s1, d, hcall, htr, hd, hsc, hlc, hnow, hfe⟩ := get_token_ok w s ht
  refine ⟨{ s1 with
              statusCalls := s1.statusCalls + 1
              trace := s1.trace ++ [Event.statusPut v] },
    d, ?_, ?_, hd, hlc, hnow, hfe⟩
  · unfold update_status
    rw [hcall]
    simp [hs]
  · simp [htr]

theorem append_log_ok (w : World) (msg : String) (s : St)
    (ht : (w.tokenFetch s.fetches).isSome = true)
    (hl : ∀ n, w.logOk n = true) :
    ∃ s2 d, append_log w msg s = (s2, Except.ok ()) ∧
      s2.trace = s.trace ++ d ++ [Event.logPost msg] ∧
      (∀ e ∈ d, isTokenEv e = true) ∧
      s2.statusCalls = s.statusCalls ∧ s2.now = s.now ∧ s.fetches ≤ s2.fetches := by
  obtain ⟨t, s1, d, hcall, htr, hd, hsc, hlc, hnow, hfe⟩ := get_token_ok w s ht
  refine ⟨{ s1 with
              logCalls := s1.logCalls + 1
              trace := s1.trace ++ [Event.logPost msg] },
    d, ?_, ?_, hd, hsc, hnow, hfe⟩
  · unfold append_log
    rw [hcall]
    simp [hl]
  · simp [htr]

theorem prepare_inputs_ok (w : World) (s : St) (raw : List BenchmarkResult)
    (ht : (w.tokenFetch s.fetches).isSome = true)
    (hib : w.inputBody = some raw) :
    ∃ s2 d, prepare_inputs w s = (s2, Except.ok (prepList w raw)) ∧
      s2.trace = s.trace ++ d ++ [Event.inputFetched] ∧
      (∀ e ∈ d, isTokenEv e = true) ∧
      s2.statusCalls = s.statusCalls ∧ s2.logCalls = s.logCalls ∧
      s2.now = s.now ∧ s.fetches ≤ s2.fetches := by
  obtain ⟨t, s1, d, hcall, htr, hd, hsc, hlc, hnow, hfe⟩ := get_token_ok w s ht
  refine ⟨{ s1 with trace := s1.trace ++ [Event.inputFetched] }, d, ?_, ?_,
    hd, hsc, hlc, hnow, hfe⟩
  · unfold prepare_inputs
    rw [hcall]
    simp [hib]
  · simp [htr]

theorem prepare_inputs_err (w : World) (s : St)
    (ht : (w.tokenFetch s.fetches).isSome = true)
    (hib : w.inputBody = none) :
    ∃ s2, prepare_inputs w s = (s2, Except.error Err.inputJsonFailed) := by
  obtain ⟨t, s1, d, hcall, htr, hd, hsc, hlc, hnow, hfe⟩ := get_token_ok w s ht
  refine ⟨{ s1 with trace := s1.trace ++ [Event.inputFetched] }, ?_⟩
  unfold prepare_inputs
  rw [hcall]
  simp [hib]

theorem prepare_inputs_ok_inv (w : World) (s s2 : St)
    (v : List ProblemTestState)
    (h : prepare_inputs w s = (s2, Except.ok v)) :
    ∃ raw, w.inputBody = some raw ∧ v = prepList w raw := by
  unfold prepare_inputs at h
  rcases hg : get_oidc_token w s with ⟨s1, r⟩
  rw [hg] at h
  cases r with
  | error e => simp at h
  | ok t =>
    cases hib : w.inputBody with
    | none => rw [hib] at h; simp at h
    | some raw =>
      rw [hib] at h
      simp at h
      exact ⟨raw, rfl, h.2.symm⟩

theorem upload_output_ok_inv (w : World) (rs : List BenchmarkResult)
    (s s2 : St) (h : upload_output w rs s = (s2, Except.ok ())) :
    Event.uploadPut rs ∈ s2.trace := by
  unfold upload_output at h
  rcases hg : get_oidc_token w s with ⟨s1, r⟩
  rw [hg] at h
  cases r with
  | error e => simp at h
  | ok t =>
    cases hu : w.outputUrlOk
    · rw [hu] at h; simp at h
    · rw [hu] at h
      cases hu2 : w.outputPutOk
      · rw [hu2] at h; simp at h
      · rw [hu2] at h
        simp at h
        rw [← h]
        simp

theorem handleFailure_ok (w : World) (e : Err) (s : St)
    (Ht : ∀ n, s.fetches ≤ n → (w.tokenFetch n).isSome = true)
    (Hl : ∀ n, w.logOk n = true) (Hs : ∀ n, w.statusOk n = true) :
    ∃ s2 d1 d2, handleFailure w e s = (s2, TopOut.cleanExit) ∧
      s2.trace = s.trace ++ d1 ++ [Event.logPost (mkErrorLog w e)] ++ d2 ++
        [Event.statusPut "failed"] ∧
      (∀ ev ∈ d1, isTokenEv ev = true) ∧ (∀ ev ∈ d2, isTokenEv ev = true) := by
  obtain ⟨s1, d1, hal, htr1, hd1, hsc1, hnow1, hfe1⟩ :=
    append_log_ok w (mkErrorLog w e) s (Ht s.fetches (le_refl _)) Hl
  obtain ⟨s2, d2, hus, htr2, hd2, hlc2, hnow2, hfe2⟩ :=
    update_status_ok w "failed" s1 (Ht s1.fetches hfe1) Hs
  refine ⟨s2, d1, d2, ?_, ?_, hd1, hd2⟩
  · simp [handleFailure, hal, hus]
  · rw [htr2, htr1]

theorem submitItem_snd (w : World) (idx : Nat) (item : ProblemTestState)
    (s : St) : (submitItem w idx item s).2 = submitPure w idx item := by
  unfold submitItem submitPure
  cases hf : falsyStr item.code with
  | true => simp
  | false => simp only [Bool.false_eq_true, if_false, ite_false]

theorem submitPhase_get (w : World) :
    ∀ (items : List ProblemTestState) (k : Nat) (s : St) (i : Nat),
      ((submitPhase w k items s).2)[i]? =
        (items[i]?).map (fun it => submitPure w (k + i) it) := by
  intro items
  induction items with
  | nil => intro k s i; simp [submitPhase]
  | cons a t ih =>
    intro k s i
    simp only [submitPhase]
    rcases hsi : submitItem w k a s with ⟨s1, a1⟩
    rcases hsp : submitPhase w (k + 1) t s1 with ⟨s2, t1⟩
    have ha1 : a1 = submitPure w k a := by
      have h := submitItem_snd w k a s
      rw [hsi] at h; exact h
    cases i with
    | zero => simp [ha1]
    | succ j =>
      have h := ih (k + 1) s1 j
      rw [hsp] at h
      simp only [List.getElem?_cons_succ]
      rw [h]
      have : k + 1 + j = k + (j + 1) := by omega
      rw [this]

theorem submitPhase_length (w : World) :
    ∀ (items : List ProblemTestState) (k : Nat) (s : St),
      (submitPhase w k items s).2.length = items.length := by
  intro items
  induction items with
  | nil => intro k s; rfl
  | cons a t ih =>
    intro k s
    simp only [submitPhase]
    rcases hsi : submitItem w k a s with ⟨s1, a1⟩
    rcases hsp : submitPhase w (k + 1) t s1 with ⟨s2, t1⟩
    have h := ih (k + 1) s1
    rw [hsp] at h
    simp [h]

theorem pollLoop_snd (w : World) (sid : Nat) :
    ∀ (fuel attempt : Nat) (s : St),
      (pollLoop w sid fuel attempt s).2 = pollLoopPure w sid fuel attempt := by
  intro fuel
  induction fuel with
  | zero => intro attempt s; rfl
  | succ f ih =>
    intro attempt s
    simp only [pollLoop, pollLoopPure]
    cases hr : (w.poll sid attempt == "Judging") <;> simp [hr, ih]

theorem pollItem_snd (w : World) (fuel : Nat) (item : ProblemTestState)
    (s : St) : (pollItem w fuel item s).2 = pollPure w fuel item := by
  unfold pollItem pollPure
  cases hf : falsySid item.submission_id with
  | true => simp
  | false =>
    simp only [Bool.false_eq_true, if_false, ite_false]
    have h := pollLoop_snd w (item.submission_id.getD 0) fuel 0 s
    rcases hpl : pollLoop w (item.submission_id.getD 0) fuel 0 s with ⟨s1, r⟩
    rw [hpl] at h
    rw [← h]
    cases r <;> simp

theorem pollPhase_some_get (w : World) (fuel : Nat) :
    ∀ (items : List ProblemTestState) (s s2 : St) (out : List ProblemTestState),
      pollPhase w fuel items s = (s2, some out) →
      ∀ i : Nat, out[i]? = (items[i]?).bind (pollPure w fuel) := by
  intro items
  induction items with
  | nil =>
    intro s s2 out h i
    simp only [pollPhase] at h
    injection h with h1 h2
    injection h2 with h2
    subst h2
    simp
  | cons a t ih =>
    intro s s2 out h i
    simp only [pollPhase] at h
    split at h
    next s1 heq => simp at h
    next s1 a1 heq =>
      split at h
      next s3 heq2 => simp at h
      next s3 t1 heq2 =>
        simp at h
        have ha1 : pollPure w fuel a = some a1 := by
          have hs := pollItem_snd w fuel a s
          rw [heq] at hs; exact hs.symm
        rw [← h.2]
        cases i with
        | zero => simp [ha1]
        | succ j =>
          simp only [List.getElem?_cons_succ]
          exact ih s1 s3 t1 heq2 j

theorem pollPhase_some_length (w : World) (fuel : Nat) :
    ∀ (items : List ProblemTestState) (s s2 : St) (out : List ProblemTestState),
      pollPhase w fuel items s = (s2, some out) → out.length = items.length := by
  intro items
  induction items with
  | nil =>
    intro s s2 out h
    simp only [pollPhase] at h
    injection h with h1 h2
    injection h2 with h2
    subst h2
    rfl
  | cons a t ih =>
    intro s s2 out h
    simp only [pollPhase] at h
    split at h
    next s1 heq => simp at h
    next s1 a1 heq =>
      split at h
      next s3 heq2 => simp at h
      next s3 t1 heq2 =>
        simp at h
        rw [← h.2]
        simp [ih s1 s3 t1 heq2]

theorem prepList_get (w : World) (raw : List BenchmarkResult) (i : Nat) :
    (prepList w raw)[i]? = (raw[i]?).map (fun b => toState (deriveCode w b)) := by
  simp [prepList]

theorem prepList_sid_none (w : World) (raw : List BenchmarkResult) (i : Nat)
    (b : ProblemTestState) (h : (prepList w raw)[i]? = some b) :
    b.submission_id = none := by
  rw [prepList_get] at h
  cases hr : raw[i]? with
  | none => rw [hr] at h; simp at h
  | some b0 =>
    rw [hr] at h
    simp at h
    rw [← h]
    rfl

theorem quiet_on_token (p : Event → Bool)
    (h1 : ∀ n, p (Event.tokenFetchAttempt n) = false)
    (h2 : ∀ n, p (Event.tokenFetched n) = false)
    (e : Event) (he : isTokenEv e = true) : p e = false := by
  cases e <;> first
    | exact h1 _
    | exact h2 _
    | simp [isTokenEv] at he

theorem main_finished_inv (w : World) (fuel : Nat) (s0 s1 : St)
    (results : List BenchmarkResult)
    (h : main w fuel s0 = (s1, MainOut.finished results)) :
    ∃ raw s2 s3 s4 out2 s5,
      w.inputBody = some raw ∧
      prepare_inputs w s0 = (s2, Except.ok (prepList w raw)) ∧
      update_status w "running" s2 = (s3, Except.ok ()) ∧
      pollPhase w fuel (submitPhase w 0 (prepList w raw) s3).2
        (submitPhase w 0 (prepList w raw) s3).1 = (s4, some out2) ∧
      results = out2.map toBenchmarkResult ∧
      upload_output w (out2.map toBenchmarkResult) s4 = (s5, Except.ok ()) ∧
      s1 = s5 := by
  unfold main at h
  split at h
  next sa e heq => simp at h
  next sa inputs heq =>
    obtain ⟨raw, hib, hv⟩ := prepare_inputs_ok_inv w s0 sa inputs heq
    subst hv
    split at h
    next sb e heq2 => simp at h
    next sb u heq2 =>
      split at h
      next sc heq3 => simp at h
      next sc out2 heq3 =>
        split at h
        next sd e heq4 => simp at h
        next sd u2 heq4 =>
          simp at h
          exact ⟨raw, sa, sb, sc, out2, sd, hib, heq, heq2, heq3,
            h.2.symm, heq4, h.1.symm⟩

theorem main_spec (w : World) (fuel : Nat)
    (Htok : ∀ n, (w.tokenFetch n).isSome = true)
    (Hstat : ∀ n, w.statusOk n = true) :
    ∃ s1 out, main w fuel initSt = (s1, out) ∧
      (∀ p, PhaseQuiet p →
        count p s1.trace =
          if (w.inputBody).isSome then
            (if p (Event.statusPut "running") then 1 else 0)
          else 0) ∧
      (w.inputBody = none → out = MainOut.raised Err.inputJsonFailed) ∧
      (∀ results, out = MainOut.finished results → (w.inputBody).isSome = true) := by
  cases hib : w.inputBody with
  | none =>
    obtain ⟨s2, hpe⟩ := prepare_inputs_err w initSt (Htok _) hib
    refine ⟨s2, MainOut.raised Err.inputJsonFailed, ?_, ?_, fun _ => rfl, ?_⟩
    · unfold main
      rw [hpe]
    · intro p hp
      obtain ⟨h1, h2, h3, h4, h5, h6, h7⟩ := hp
      have h := count_prepare w initSt p h1 h2 h3
      rw [hpe] at h
      simpa [initSt, count_nil] using h
    · intro results hr
      simp at hr
  | some raw =>
    obtain ⟨s2, d, hpi, htr2, hd, hsc2, hlc2, hnow2, hfe2⟩ :=
      prepare_inputs_ok w initSt raw (Htok _) hib
    obtain ⟨s3, d2, hus, htr3, hd2, hlc3, hnow3, hfe3⟩ :=
      update_status_ok w "running" s2 (Htok _) Hstat
    have hc23 : ∀ p, PhaseQuiet p →
        count p s3.trace = if p (Event.statusPut "running") then 1 else 0 := by
      intro p hp
      obtain ⟨h1, h2, h3, h4, h5, h6, h7⟩ := hp
      rw [htr3, htr2]
      simp [count_append, count_cons, count_single,
        count_eq_zero p d (fun e he => quiet_on_token p h1 h2 e (hd e he)),
        count_eq_zero p d2 (fun e he => quiet_on_token p h1 h2 e (hd2 e he)),
        h3, initSt, count_nil]
    rcases hpp : pollPhase w fuel (submitPhase w 0 (prepList w raw) s3).2
        (submitPhase w 0 (prepList w raw) s3).1 with ⟨s4, r4⟩
    have hc4 : ∀ p, PhaseQuiet p →
        count p s4.trace = if p (Event.statusPut "running") then 1 else 0 := by
      intro p hp
      obtain ⟨h1, h2, h3, h4, h5, h6, h7⟩ := hp
      have ha := count_pollPhase_gen w fuel p h6 h5
        (submitPhase w 0 (prepList w raw) s3).2 (submitPhase w 0 (prepList w raw) s3).1
      rw [hpp] at ha
      rw [ha, count_submitPhase w p h4 (prepList w raw) 0 s3]
      exact hc23 p ⟨h1, h2, h3, h4, h5, h6, h7⟩
    cases r4 with
    | none =>
      refine ⟨s4, MainOut.hung, ?_, ?_, ?_, ?_⟩
      · simp only [main, hpi, hus, hpp]
      · intro p hp
        rw [hc4 p hp]
        simp [hib]
      · intro hx; exact Option.noConfusion hx
      · intro results hr; simp at hr
    | some inputs2 =>
      rcases hup : upload_output w (inputs2.map toBenchmarkResult) s4 with ⟨s5, r5⟩
      have hc5 : ∀ p, PhaseQuiet p →
          count p s5.trace = if p (Event.statusPut "running") then 1 else 0 := by
        intro p hp
        obtain ⟨h1, h2, h3, h4, h5, h6, h7⟩ := hp
        have ha := count_upload w (inputs2.map toBenchmarkResult) s4 p h1 h2 h7
        rw [hup] at ha
        rw [ha]
        exact hc4 p ⟨h1, h2, h3, h4, h5, h6, h7⟩
      cases r5 with
      | error e =>
        refine ⟨s5, MainOut.raised e, ?_, ?_, ?_, ?_⟩
        · simp only [main, hpi, hus, hpp, hup]
        · intro p hp
          rw [hc5 p hp]
          simp [hib]
        · intro hx; exact Option.noConfusion hx
        · intro results hr; simp at hr
      | ok u =>
        refine ⟨s5, MainOut.finished (inputs2.map toBenchmarkResult), ?_, ?_, ?_, ?_⟩
        · simp only [main, hpi, hus, hpp, hup]
        · intro p hp
          rw [hc5 p hp]
          simp [hib]
        · intro hx; exact Option.noConfusion hx
        · intro results hr; simp [hib]

theorem submitPhase_count_lt (w : World) :
    ∀ (items : List ProblemTestState) (k : Nat) (s : St) (m : Nat), m < k →
      count (isSubmitAt m) (submitPhase w k items s).1.trace
        = count (isSubmitAt m) s.trace := by
  intro items
  induction items with
  | nil => intro k s m hm; rfl
  | cons a t ih =>
    intro k s m hm
    simp only [submitPhase]
    rcases hsi : submitItem w k a s with ⟨s1, a1⟩
    rcases hsp : submitPhase w (k + 1) t s1 with ⟨s2, t1⟩
    have hrest : count (isSubmitAt m) s2.trace = count (isSubmitAt m) s1.trace := by
      have h := ih (k + 1) s1 m (Nat.lt_succ_of_lt hm)
      rw [hsp] at h; exact h
    have hkm : (k == m) = false := beq_eq_false_iff_ne.mpr (Nat.ne_of_gt hm)
    have hstep : count (isSubmitAt m) s1.trace = count (isSubmitAt m) s.trace := by
      have h : count (isSubmitAt m) (submitItem w k a s).1.trace
          = count (isSubmitAt m) s.trace := by
        unfold submitItem
        cases hf : falsyStr a.code <;>
          simp [count_append, count_single, isSubmitAt, hkm]
      rw [hsi] at h; exact h
    simp [hrest, hstep]

theorem submitPhase_count_falsy (w : World) :
    ∀ (items : List ProblemTestState) (k : Nat) (s : St) (i : Nat)
      (it : ProblemTestState), items[i]? = some it → falsyStr it.code = true →
      count (isSubmitAt (k + i)) (submitPhase w k items s).1.trace
        = count (isSubmitAt (k + i)) s.trace := by
  intro items
  induction items with
  | nil => intro k s i it h hf; simp at h
  | cons a t ih =>
    intro k s i it h hf
    cases i with
    | zero =>
      simp at h
      subst h
      simp only [submitPhase]
      have hitem : submitItem w k a s = (s, { a with judge_result := "Judge Failed" }) := by
        unfold submitItem
        simp [hf]
      rw [hitem]
      rcases hsp : submitPhase w (k + 1) t s with ⟨s2, t1⟩
      have h := submitPhase_count_lt w t (k + 1) s (k + 0) (by omega)
      rw [hsp] at h
      simpa using h
    | succ j =>
      simp only [List.getElem?_cons_succ] at h
      simp only [submitPhase]
      rcases hsi : submitItem w k a s with ⟨s1, a1⟩
      rcases hsp : submitPhase w (k + 1) t s1 with ⟨s2, t1⟩
      have heq : k + (j + 1) = (k + 1) + j := by omega
      rw [heq]
      have hrest : count (isSubmitAt ((k + 1) + j)) s2.trace
          = count (isSubmitAt ((k + 1) + j)) s1.trace := by
        have hh := ih (k + 1) s1 j it h hf
        rw [hsp] at hh; exact hh
      have hkm : (k == (k + 1) + j) = false :=
        beq_eq_false_iff_ne.mpr (by omega)
      have hstep : count (isSubmitAt ((k + 1) + j)) s1.trace
          = count (isSubmitAt ((k + 1) + j)) s.trace := by
        have hh : count (isSubmitAt ((k + 1) + j)) (submitItem w k a s).1.trace
            = count (isSubmitAt ((k + 1) + j)) s.trace := by
          unfold submitItem
          cases hfa : falsyStr a.code <;>
            simp [count_append, count_single, isSubmitAt, hkm]
        rw [hsi] at hh; exact hh
      simp [hrest, hstep]

theorem pollLoop_spec (w : World) (k : Nat) :
    ∀ (n0 fuel attempt : Nat) (s : St),
      (∀ m, m < n0 → w.poll k (attempt + m) = "Judging") →
      w.poll k (attempt + n0) ≠ "Judging" → n0 < fuel →
      ∃ s2, pollLoop w k fuel attempt s = (s2, some (w.poll k (attempt + n0))) ∧
        s2.trace = s.trace ++ pollDelta k n0 := by
  intro n0
  induction n0 with
  | zero =>
    intro fuel attempt s hj hf hlt
    cases fuel with
    | zero => omega
    | succ f =>
      simp only [pollLoop]
      have hb : (w.poll k attempt == "Judging") = false := by
        simp only [beq_eq_false_iff_ne, ne_eq]
        simpa using hf
      rw [hb]
      refine ⟨{ s with trace := s.trace ++ [Event.pollCall k] }, ?_, ?_⟩
      · simp
      · simp [pollDelta]
  | succ m ih =>
    intro fuel attempt s hj hf hlt
    cases fuel with
    | zero => omega
    | succ f =>
      simp only [pollLoop]
      have hb : (w.poll k attempt == "Judging") = true := by
        simp only [beq_iff_eq]
        simpa using hj 0 (by omega)
      rw [hb]
      simp only [ite_true]
      have hj2 : ∀ m2, m2 < m → w.poll k ((attempt + 1) + m2) = "Judging" := by
        intro m2 hm2
        have := hj (m2 + 1) (by omega)
        have harith : attempt + (m2 + 1) = (attempt + 1) + m2 := by omega
        rw [harith] at this
        exact this
      have hf2 : w.poll k ((attempt + 1) + m) ≠ "Judging" := by
        have harith : (attempt + 1) + m = attempt + (m + 1) := by omega
        rw [harith]
        exact hf
      obtain ⟨s2, hloop, htr⟩ := ih f (attempt + 1)
        { s with now := s.now + 1,
                 trace := s.trace ++ [Event.pollCall k, Event.sleep] } hj2 hf2 (by omega)
      refine ⟨s2, ?_, ?_⟩
      · rw [hloop]
        have harith : (attempt + 1) + m = attempt + (m + 1) := by omega
        rw [harith]
      · rw [htr]
        simp [pollDelta]

theorem phaseQuiet_isStatusV (v : String) : PhaseQuiet (isStatusV v) :=
  ⟨fun _ => rfl, fun _ => rfl, rfl, fun _ _ _ _ => rfl, fun _ _ => rfl, rfl,
    fun _ => rfl⟩

theorem phaseQuiet_isLog : PhaseQuiet isLog :=
  ⟨fun _ => rfl, fun _ => rfl, rfl, fun _ _ _ _ => rfl, fun _ _ => rfl, rfl,
    fun _ => rfl⟩

theorem phaseQuiet_isPollAt0 : PhaseQuiet (isPollAt 0) :=
  ⟨fun _ => rfl, fun _ => rfl, rfl, fun _ _ _ _ => rfl,
    fun k hk => by simp only [isPollAt]; exact beq_eq_false_iff_ne.mpr hk,
    rfl, fun _ => rfl⟩

theorem isStatusV_self (v : String) : isStatusV v (Event.statusPut v) = true := by
  simp [isStatusV]

theorem count_token_delta (p : Event → Bool)
    (h1 : ∀ n, p (Event.tokenFetchAttempt n) = false)
    (h2 : ∀ n, p (Event.tokenFetched n) = false)
    (d : List Event) (hd : ∀ e ∈ d, isTokenEv e = true) : count p d = 0 :=
  count_eq_zero p d (fun e he => quiet_on_token p h1 h2 e (hd e he))

/-- C9: for every non-empty program text, `detect_language` returns the
compiled-language variant (C++) exactly when the stripped text begins with
the `#include` preprocessor directive, and the interpreted-language variant
(PyPy) otherwise. -/
theorem detect_language_spec (c : String) (_hc : c ≠ "") :
    (detect_language c = SupportedLanguage.CPP ↔
      (c.trim).startsWith "#include" = true) ∧
    (detect_language c = SupportedLanguage.PYPY ↔
      (c.trim).startsWith "#include" = false) := by
  unfold detect_language
  cases hs : (c.trim).startsWith "#include" <;> simp [hs]

/-- Witness for C9 at concrete inputs: a C++ source and a Python source. -/
theorem detect_language_spec_witness :
    (detect_language "#include <iostream>" = SupportedLanguage.CPP ↔
      ("#include <iostream>".trim).startsWith "#include" = true) ∧
    (detect_language "print(1)" = SupportedLanguage.PYPY ↔
      ("print(1)".trim).startsWith "#include" = false) :=
  ⟨(detect_language_spec "#include <iostream>" (by decide)).1,
   (detect_language_spec "print(1)" (by decide)).2⟩

/-- C8: `get_oidc_token` returns the cached token with no state change (in
particular no metadata fetch) whenever the cached expiry is more than 60
seconds past the clock; otherwise (cold or stale cache) it performs exactly
one fetch, caches the new token and returns it; and a second call right
after a fresh fetch is answered from the cache, with no further fetch. -/
theorem getToken_cache_spec (w : World) (s : St) :
    (∀ t : Token, s.token = some t → t.1 > s.now + 60 →
      get_oidc_token w s = (s, Except.ok t)) ∧
    (∀ exp : Int, s.token = none → w.tokenFetch s.fetches = some exp →
      get_oidc_token w s =
        ({ s with
             token := some (exp, s.fetches)
             fetches := s.fetches + 1
             trace := s.trace ++ [Event.tokenFetchAttempt s.fetches,
               Event.tokenFetched s.fetches] },
         Except.ok (exp, s.fetches))) ∧
    (∀ (t : Token) (exp : Int), s.token = some t → ¬t.1 > s.now + 60 →
      w.tokenFetch s.fetches = some exp →
      get_oidc_token w s =
        ({ s with
             token := some (exp, s.fetches)
             fetches := s.fetches + 1
             trace := s.trace ++ [Event.tokenFetchAttempt s.fetches,
               Event.tokenFetched s.fetches] },
         Except.ok (exp, s.fetches))) ∧
    (∀ exp : Int, s.token = none → w.tokenFetch s.fetches = some exp →
      exp > s.now + 60 →
      get_oidc_token w (get_oidc_token w s).1 =
        ((get_oidc_token w s).1, Except.ok (exp, s.fetches)) ∧
      (get_oidc_token w s).1.fetches = s.fetches + 1) := by
  refine ⟨?_, ?_, ?_, ?_⟩
  · intro t hst ht
    exact get_token_cached w s t hst ht
  · intro exp hst hexp
    rw [get_token_none w s hst]
    exact fetchToken_ok w s exp hexp
  · intro t exp hst ht hexp
    rw [get_token_stale w s t hst ht]
    exact fetchToken_ok w s exp hexp
  · intro exp hst hexp hfresh
    have h2 : get_oidc_token w s =
        ({ s with
             token := some (exp, s.fetches)
             fetches := s.fetches + 1
             trace := s.trace ++ [Event.tokenFetchAttempt s.fetches,
               Event.tokenFetched s.fetches] },
         Except.ok (exp, s.fetches)) := by
      rw [get_token_none w s hst]
      exact fetchToken_ok w s exp hexp
    rw [h2]
    exact ⟨get_token_cached w _ (exp, s.fetches) rfl hfresh, rfl⟩

/-- Witness for C8: with a healthy metadata server and a cold cache, the
first call fetches and the second call is served from the cache. -/
theorem getToken_cache_spec_witness :
    get_oidc_token wBase (get_oidc_token wBase initSt).1 =
      ((get_oidc_token wBase initSt).1, Except.ok (100000, 0)) ∧
    (get_oidc_token wBase initSt).1.fetches = 1 :=
  (getToken_cache_spec wBase initSt).2.2.2 100000 rfl rfl (by decide)

/-- C3 (amended): `prepare_inputs` never consults the HTTP status of the
fetch-inputs response (the function's result is invariant under that
status); the call aborts the run there only when the response body cannot
be parsed as a record list, in which case the raised failure reaches the
top-level handler, which reports `"failed"` after appending one log
entry. -/
theorem fetch_inputs_status_spec (w : World) (s : St) (n : Nat) (fuel : Nat) :
    (prepare_inputs { w with inputStatus := n } s = prepare_inputs w s) ∧
    (w.inputBody = none → (∀ m, (w.tokenFetch m).isSome = true) →
      (∀ m, w.statusOk m = true) → (∀ m, w.logOk m = true) →
      ∃ s1 s2, main w fuel initSt = (s1, MainOut.raised Err.inputJsonFailed) ∧
        topLevel w fuel = (s2, TopOut.cleanExit) ∧
        count (isStatusV "failed") s2.trace = 1 ∧ count isLog s2.trace = 1) := by
  constructor
  · rfl
  · intro hib Htok Hstat Hlog
    obtain ⟨s1, hpe⟩ := prepare_inputs_err w initSt (Htok _) hib
    have hmain : main w fuel initSt = (s1, MainOut.raised Err.inputJsonFailed) := by
      simp only [main, hpe]
    obtain ⟨s2, d1, d2, hhf, htr, hd1, hd2⟩ :=
      handleFailure_ok w Err.inputJsonFailed s1 (fun m _ => Htok m) Hlog Hstat
    have htop : topLevel w fuel = (s2, TopOut.cleanExit) := by
      simp only [topLevel, hmain]
      exact hhf
    have hz : ∀ p, PhaseQuiet p → p (Event.statusPut "running") = false →
        count p s1.trace = 0 := by
      intro p hp hr
      have h := count_main w fuel initSt p hp hr
      rw [hmain] at h
      simpa [initSt, count_nil] using h
    refine ⟨s1, s2, hmain, htop, ?_, ?_⟩
    · rw [htr]
      simp [count_append, count_cons, count_nil, count_single,
        count_token_delta (isStatusV "failed") (fun _ => rfl) (fun _ => rfl) d1 hd1,
        count_token_delta (isStatusV "failed") (fun _ => rfl) (fun _ => rfl) d2 hd2,
        hz (isStatusV "failed") (phaseQuiet_isStatusV "failed") (by decide),
        isStatusV_self, isStatusV]
    · rw [htr]
      simp [count_append, count_cons, count_nil, count_single,
        count_token_delta isLog (fun _ => rfl) (fun _ => rfl) d1 hd1,
        count_token_delta isLog (fun _ => rfl) (fun _ => rfl) d2 hd2,
        hz isLog phaseQuiet_isLog (by decide), isLog]

/-- Counterexample for C3 as stated: with `wBadStatus` the fetch-inputs
response has HTTP status 500, yet `prepare_inputs` succeeds and the whole
run completes with no failure reported. -/
theorem fetch_inputs_non2xx_cex :
    wBadStatus.inputStatus = 500 ∧
    (prepare_inputs wBadStatus initSt).2 =
      Except.ok (prepList wBadStatus [itemCpp]) ∧
    (topLevel wBadStatus 2).2 = TopOut.cleanExit ∧
    count (isStatusV "failed") (topLevel wBadStatus 2).1.trace = 0 := by
  refine ⟨rfl, rfl, by decide, by decide⟩

/-- Witness for C3 (amended): with an unparseable body the run fails and
reports exactly one `"failed"` status and one log entry. -/
theorem fetch_inputs_status_spec_witness :
    ∃ s1 s2, main wNoJson 2 initSt = (s1, MainOut.raised Err.inputJsonFailed) ∧
      topLevel wNoJson 2 = (s2, TopOut.cleanExit) ∧
      count (isStatusV "failed") s2.trace = 1 ∧ count isLog s2.trace = 1 :=
  (fetch_inputs_status_spec wNoJson initSt 500 2).2 rfl (fun _ => rfl)
    (fun _ => rfl) (fun _ => rfl)

theorem submitPure_falsy (w : World) (i : Nat) (item : ProblemTestState)
    (h : falsyStr item.code = true) :
    submitPure w i item = { item with judge_result := "Judge Failed" } := by
  unfold submitPure
  simp [h]

theorem submitPure_failed (w : World) (i : Nat) (item : ProblemTestState)
    (hcode : falsyStr item.code = false)
    (hfail : ∀ sid, w.submit i item.problem_id
        (detect_language (item.code.getD "")) (item.code.getD "") ≠
        SubmitOutcome.ok sid) :
    submitPure w i item = { item with judge_result := "Judge Failed" } := by
  unfold submitPure
  simp only [hcode, Bool.false_eq_true, if_false, ite_false]
  cases houtc : w.submit i item.problem_id (detect_language (item.code.getD ""))
      (item.code.getD "") with
  | ok sid => exact absurd houtc (hfail sid)
  | problemNotFound => rfl
  | err m => rfl

theorem submitPure_ok (w : World) (i : Nat) (item : ProblemTestState)
    (sid : Nat) (hcode : falsyStr item.code = false)
    (hsub : w.submit i item.problem_id (detect_language (item.code.getD ""))
        (item.code.getD "") = SubmitOutcome.ok sid) :
    submitPure w i item = { item with submission_id := some sid } := by
  unfold submitPure
  simp only [hcode, Bool.false_eq_true, if_false, ite_false, hsub]

theorem pollPure_skip (w : World) (fuel : Nat) (item : ProblemTestState)
    (h : falsySid item.submission_id = true) :
    pollPure w fuel item = some item := by
  unfold pollPure
  simp [h]

/-- C5: an item whose submission fails (with `ProblemNotFound` or any other
error) is alone marked `"Judge Failed"`, its `submission_id` is untouched,
and the submit phase still processes every other item of the batch exactly
according to that item's own submit outcome — no per-item failure aborts
the pass. -/
theorem submit_failure_isolated (w : World) (items : List ProblemTestState)
    (s : St) (i : Nat) (item : ProblemTestState)
    (hget : items[i]? = some item)
    (hcode : falsyStr item.code = false)
    (hfail : ∀ sid, w.submit i item.problem_id
        (detect_language (item.code.getD "")) (item.code.getD "") ≠
        SubmitOutcome.ok sid) :
    ((submitPhase w 0 items s).2)[i]? =
      some { item with judge_result := "Judge Failed" } ∧
    ({ item with judge_result := "Judge Failed" } : ProblemTestState).submission_id
      = item.submission_id ∧
    (submitPhase w 0 items s).2.length = items.length ∧
    (∀ j item2, items[j]? = some item2 →
      ((submitPhase w 0 items s).2)[j]? = some (submitPure w j item2)) := by
  have hall : ∀ (j : Nat) (item2 : ProblemTestState), items[j]? = some item2 →
      ((submitPhase w 0 items s).2)[j]? = some (submitPure w j item2) := by
    intro j item2 hj
    have h := submitPhase_get w items 0 s j
    rw [hj] at h
    simpa using h
  refine ⟨?_, rfl, submitPhase_length w items 0 s, hall⟩
  rw [hall i item hget, submitPure_failed w i item hcode hfail]

/-- Witness for C5: in a two-item batch whose first submission raises
`ProblemNotFound`, the first item is marked failed and the batch keeps
both items. -/
theorem submit_failure_isolated_witness :
    ((submitPhase wNotFound 0 (prepList wNotFound [itemCpp, itemPy]) initSt).2)[0]? =
      some { toState itemCpp with judge_result := "Judge Failed" } ∧
    (submitPhase wNotFound 0 (prepList wNotFound [itemCpp, itemPy]) initSt).2.length
      = 2 :=
  ⟨(submit_failure_isolated wNotFound (prepList wNotFound [itemCpp, itemPy])
      initSt 0 (toState itemCpp) rfl rfl (fun _ h => nomatch h)).1,
   (submit_failure_isolated wNotFound (prepList wNotFound [itemCpp, itemPy])
      initSt 0 (toState itemCpp) rfl rfl (fun _ h => nomatch h)).2.2.1⟩

/-- C6 (amended): an item with a nonzero `submission_id` is polled
repeatedly — sleeping between attempts — until the first non-`"Judging"`
answer, which becomes its `judge_result`; an item with a falsy
`submission_id` (`None` or `0`) is skipped with no poll call and an
unchanged `judge_result`. -/
theorem poll_until_verdict (w : World) (fuel : Nat) (item : ProblemTestState)
    (s : St) (k n0 : Nat)
    (hsid : item.submission_id = some k) (hk : k ≠ 0)
    (hjudging : ∀ m, m < n0 → w.poll k m = "Judging")
    (hfinal : w.poll k n0 ≠ "Judging") (hfuel : n0 < fuel) :
    (∃ s2, pollItem w fuel item s =
        (s2, some { item with judge_result := w.poll k n0 }) ∧
      s2.trace = s.trace ++ pollDelta k n0) ∧
    (∀ item2 : ProblemTestState, falsySid item2.submission_id = true →
      pollItem w fuel item2 s = (s, some item2)) := by
  constructor
  · have hfalsy : falsySid item.submission_id = false := by
      rw [hsid]
      exact beq_eq_false_iff_ne.mpr hk
    have hg : item.submission_id.getD 0 = k := by rw [hsid]; rfl
    obtain ⟨s2, hloop, htr⟩ := pollLoop_spec w k n0 fuel 0 s
      (by intro m hm; simpa using hjudging m hm) (by simpa using hfinal) hfuel
    refine ⟨s2, ?_, htr⟩
    unfold pollItem
    rw [← hg] at hloop
    simp only [hfalsy, Bool.false_eq_true, if_false, ite_false, hloop]
    simp
    rw [hg]
  · intro item2 h2
    unfold pollItem
    simp [h2]

/-- Counterexample to C6 as stated: the judge assigns submission id `0`;
the item *has* a `submission_id` (it is `some 0`) but the poll phase never
calls `pollResult` for it — even though the judge would answer
`"Accepted"` — and its `judge_result` stays `"Judging"` in the uploaded
output. -/
theorem poll_skips_zero_sid_cex :
    ((submitPhase wZero 0 (prepList wZero [itemCpp]) initSt).2.map
      (fun it => it.submission_id)) = [some 0] ∧
    wZero.poll 0 0 = "Accepted" ∧
    (main wZero 2 initSt).2 = MainOut.finished [itemCpp] ∧
    itemCpp.judge_result = "Judging" ∧
    count isPollEv (main wZero 2 initSt).1.trace = 0 := by
  decide

/-- Witness for C6 (amended): submission id 9, two `"Judging"` answers and
then a verdict; and a skipped item with no submission id. -/
theorem poll_until_verdict_witness :
    (∃ s2, pollItem wSlow9 4 itemPolled initSt =
        (s2, some { itemPolled with judge_result := wSlow9.poll 9 2 }) ∧
      s2.trace = initSt.trace ++ pollDelta 9 2) ∧
    pollItem wSlow9 4 (toState itemNoCode) initSt =
      (initSt, some (toState itemNoCode)) :=
  ⟨(poll_until_verdict wSlow9 4 itemPolled initSt 9 2 rfl (by decide)
      (by decide) (by decide) (by decide)).1,
   (poll_until_verdict wSlow9 4 itemPolled initSt 9 2 rfl (by decide)
      (by decide) (by decide) (by decide)).2 (toState itemNoCode) rfl⟩

/-- C10: when the judge returns submission id `0` for an item, the poll
phase treats it like an unsubmitted item: no poll call for id `0` ever
happens, and the item reaches the uploaded batch with its prepared
`judge_result` (the default `"Judging"`) unchanged. -/
theorem zero_submission_id_skipped (w : World) (fuel : Nat)
    (raw : List BenchmarkResult) (s1 : St) (results : List BenchmarkResult)
    (i : Nat) (b : ProblemTestState)
    (hib : w.inputBody = some raw)
    (hrun : main w fuel initSt = (s1, MainOut.finished results))
    (hget : (prepList w raw)[i]? = some b)
    (hcode : falsyStr b.code = false)
    (hzero : w.submit i b.problem_id (detect_language (b.code.getD ""))
        (b.code.getD "") = SubmitOutcome.ok 0) :
    results[i]? = some (toBenchmarkResult b) ∧
    (toBenchmarkResult b).judge_result = b.judge_result ∧
    count (isPollAt 0) s1.trace = 0 := by
  obtain ⟨raw2, s2, s3, s4, out2, s5, hib2, hpi, hus, hpp, hres, hup, hs15⟩ :=
    main_finished_inv w fuel initSt s1 results hrun
  have hraw : raw2 = raw := by
    rw [hib] at hib2
    exact (Option.some.inj hib2).symm
  rw [hraw] at hpi hpp
  have hsubPure : submitPure w i b = { b with submission_id := some 0 } :=
    submitPure_ok w i b 0 hcode hzero
  have hout : out2[i]? = some { b with submission_id := some 0 } := by
    have h := pollPhase_some_get w fuel (submitPhase w 0 (prepList w raw) s3).2
      (submitPhase w 0 (prepList w raw) s3).1 s4 out2 hpp i
    rw [h]
    have hg := submitPhase_get w (prepList w raw) 0 s3 i
    rw [hg, hget]
    simp only [Nat.zero_add, Option.map_some', Option.some_bind]
    rw [hsubPure]
    exact pollPure_skip w fuel _ rfl
  refine ⟨?_, rfl, ?_⟩
  · rw [hres]
    simp only [List.getElem?_map, hout, Option.map_some']
    rfl
  · have h := count_main w fuel initSt (isPollAt 0) phaseQuiet_isPollAt0 rfl
    rw [hrun] at h
    simpa [initSt, count_nil] using h

/-- Witness for C10: the single-item run against a judge that answers
submission id `0`. -/
theorem zero_submission_id_skipped_witness :
    [itemCpp][0]? = some (toBenchmarkResult (toState itemCpp)) ∧
    (toBenchmarkResult (toState itemCpp)).judge_result
      = (toState itemCpp).judge_result ∧
    count (isPollAt 0) (main wZero 2 initSt).1.trace = 0 := by
  have h2 : (main wZero 2 initSt).2 = MainOut.finished [itemCpp] := by decide
  have hrun : main wZero 2 initSt =
      ((main wZero 2 initSt).1, MainOut.finished [itemCpp]) := by
    rw [← h2]
  exact zero_submission_id_skipped wZero 2 [itemCpp] (main wZero 2 initSt).1
    [itemCpp] 0 (toState itemCpp) rfl hrun rfl rfl rfl

/-- C4: every input item whose `code` is falsy at the start of the Submit
phase gets `judge_result = "Judge Failed"`, is never submitted (no submit
call carries its batch index), and reaches the uploaded output batch with
that marker. -/
theorem empty_code_marked_failed (w : World) (fuel : Nat)
    (raw : List BenchmarkResult) (s1 : St) (results : List BenchmarkResult)
    (i : Nat) (b : ProblemTestState)
    (hib : w.inputBody = some raw)
    (hrun : main w fuel initSt = (s1, MainOut.finished results))
    (hget : (prepList w raw)[i]? = some b)
    (hfalsy : falsyStr b.code = true) :
    results[i]? =
      some { toBenchmarkResult b with judge_result := "Judge Failed" } ∧
    count (isSubmitAt i) s1.trace = 0 := by
  obtain ⟨raw2, s2, s3, s4, out2, s5, hib2, hpi, hus, hpp, hres, hup, hs15⟩ :=
    main_finished_inv w fuel initSt s1 results hrun
  have hraw : raw2 = raw := by
    rw [hib] at hib2
    exact (Option.some.inj hib2).symm
  rw [hraw] at hpi hpp
  have hsid : b.submission_id = none := prepList_sid_none w raw i b hget
  have hout : out2[i]? = some { b with judge_result := "Judge Failed" } := by
    have h := pollPhase_some_get w fuel (submitPhase w 0 (prepList w raw) s3).2
      (submitPhase w 0 (prepList w raw) s3).1 s4 out2 hpp i
    rw [h]
    have hg := submitPhase_get w (prepList w raw) 0 s3 i
    rw [hg, hget]
    simp only [Nat.zero_add, Option.map_some', Option.some_bind]
    rw [submitPure_falsy w i b hfalsy]
    refine pollPure_skip w fuel _ ?_
    show falsySid b.submission_id = true
    rw [hsid]
    rfl
  constructor
  · rw [hres]
    simp only [List.getElem?_map, hout, Option.map_some']
    rfl
  · have c2 : count (isSubmitAt i) s2.trace = count (isSubmitAt i) initSt.trace := by
      have h := count_prepare w initSt (isSubmitAt i) (fun _ => rfl)
        (fun _ => rfl) rfl
      rw [hpi] at h; exact h
    have c3 : count (isSubmitAt i) s3.trace = count (isSubmitAt i) s2.trace := by
      have h := count_update_status w "running" s2 (isSubmitAt i) (fun _ => rfl)
        (fun _ => rfl) rfl
      rw [hus] at h; exact h
    have csub : count (isSubmitAt i) (submitPhase w 0 (prepList w raw) s3).1.trace
        = count (isSubmitAt i) s3.trace := by
      have h := submitPhase_count_falsy w (prepList w raw) 0 s3 i b hget hfalsy
      rw [Nat.zero_add] at h
      exact h
    have c4 : count (isSubmitAt i) s4.trace
        = count (isSubmitAt i) (submitPhase w 0 (prepList w raw) s3).1.trace := by
      have h := count_pollPhase_gen w fuel (isSubmitAt i) rfl (fun _ _ => rfl)
        (submitPhase w 0 (prepList w raw) s3).2
        (submitPhase w 0 (prepList w raw) s3).1
      rw [hpp] at h; exact h
    have c5 : count (isSubmitAt i) s5.trace = count (isSubmitAt i) s4.trace := by
      have h := count_upload w (List.map toBenchmarkResult out2) s4 (isSubmitAt i)
        (fun _ => rfl) (fun _ => rfl) (fun _ => rfl)
      rw [hup] at h; exact h
    rw [hs15, c5, c4, csub, c3, c2]
    rfl

/-- Witness for C4: a one-item batch with no code and nothing extractable. -/
theorem empty_code_marked_failed_witness :
    [{ itemNoCode with judge_result := "Judge Failed" }][0]? =
      some { toBenchmarkResult (toState (deriveCode wC4 itemNoCode)) with
        judge_result := "Judge Failed" } ∧
    count (isSubmitAt 0) (main wC4 2 initSt).1.trace = 0 := by
  have h2 : (main wC4 2 initSt).2 =
      MainOut.finished [{ itemNoCode with judge_result := "Judge Failed" }] := by
    decide
  have hrun : main wC4 2 initSt = ((main wC4 2 initSt).1,
      MainOut.finished [{ itemNoCode with judge_result := "Judge Failed" }]) := by
    rw [← h2]
  exact empty_code_marked_failed wC4 2 [itemNoCode] (main wC4 2 initSt).1
    [{ itemNoCode with judge_result := "Judge Failed" }] 0
    (toState (deriveCode wC4 itemNoCode)) rfl hrun rfl rfl

/-- C7: a run that reaches the Finalize phase uploads one record per input
item in the original order; each record is the `toBenchmarkResult`
projection of that item's final state — a projection that carries every
field of the state except `submission_id`, on which it does not depend at
all. -/
theorem finalize_output_shape (w : World) (fuel : Nat)
    (raw : List BenchmarkResult) (s1 : St) (results : List BenchmarkResult)
    (hib : w.inputBody = some raw)
    (hrun : main w fuel initSt = (s1, MainOut.finished results)) :
    results.length = raw.length ∧
    Event.uploadPut results ∈ s1.trace ∧
    (∀ (i : Nat) (b : BenchmarkResult), raw[i]? = some b →
      ∃ pf, results[i]? = some (toBenchmarkResult pf) ∧
        pollPure w fuel (submitPure w i (toState (deriveCode w b))) = some pf) ∧
    (∀ (p : ProblemTestState) (sid2 : Option Nat),
      toBenchmarkResult { p with submission_id := sid2 } = toBenchmarkResult p) ∧
    (∀ p : ProblemTestState,
      (toBenchmarkResult p).problem_id = p.problem_id ∧
      (toBenchmarkResult p).problem_title = p.problem_title ∧
      (toBenchmarkResult p).difficulty = p.difficulty ∧
      (toBenchmarkResult p).platform = p.platform ∧
      (toBenchmarkResult p).code = p.code ∧
      (toBenchmarkResult p).judge_result = p.judge_result ∧
      (toBenchmarkResult p).response_meta = p.response_meta ∧
      (p.text_response = some (toBenchmarkResult p).text_response ∨
        p.text_response = none)) := by
  obtain ⟨raw2, s2, s3, s4, out2, s5, hib2, hpi, hus, hpp, hres, hup, hs15⟩ :=
    main_finished_inv w fuel initSt s1 results hrun
  have hraw : raw2 = raw := by
    rw [hib] at hib2
    exact (Option.some.inj hib2).symm
  rw [hraw] at hpi hpp
  have hlen2 : out2.length = raw.length := by
    have h := pollPhase_some_length w fuel (submitPhase w 0 (prepList w raw) s3).2
      (submitPhase w 0 (prepList w raw) s3).1 s4 out2 hpp
    rw [submitPhase_length] at h
    simpa [prepList] using h
  refine ⟨?_, ?_, ?_, fun p sid2 => rfl, fun p => ⟨rfl, rfl, rfl, rfl, rfl, rfl, rfl, ?_⟩⟩
  · rw [hres]
    simp [hlen2]
  · rw [hs15, hres]
    exact upload_output_ok_inv w (out2.map toBenchmarkResult) s4 s5 hup
  · intro i b hgetb
    have hi : i < out2.length := by
      rw [hlen2]
      by_contra hn
      rw [List.getElem?_eq_none (by omega)] at hgetb
      simp at hgetb
    have hsome : out2[i]? = some out2[i] := List.getElem?_eq_getElem hi
    have hchain := pollPhase_some_get w fuel (submitPhase w 0 (prepList w raw) s3).2
      (submitPhase w 0 (prepList w raw) s3).1 s4 out2 hpp i
    rw [submitPhase_get w (prepList w raw) 0 s3 i, prepList_get, hgetb] at hchain
    simp only [Nat.zero_add, Option.map_some', Option.some_bind] at hchain
    refine ⟨out2[i], ?_, ?_⟩
    · rw [hres]
      simp [List.getElem?_map, hsome]
    · rw [← hchain]
      exact hsome
  · show p.text_response = some (p.text_response.getD "") ∨ p.text_response = none
    cases hp : p.text_response with
    | some t => left; rfl
    | none => right; rfl

theorem isStatusV_ne (v u : String) (h : u ≠ v) :
    isStatusV v (Event.statusPut u) = false := by
  simp only [isStatusV]
  exact beq_eq_false_iff_ne.mpr h

/-- Witness for C7: the healthy two-item run uploads both records in
order. -/
theorem finalize_output_shape_witness :
    ([{ itemCpp with judge_result := "Accepted" },
      { itemNoCode with judge_result := "Judge Failed" }] :
        List BenchmarkResult).length
      = ([itemCpp, itemNoCode] : List BenchmarkResult).length ∧
    Event.uploadPut [{ itemCpp with judge_result := "Accepted" },
      { itemNoCode with judge_result := "Judge Failed" }]
      ∈ (main wGood 3 initSt).1.trace := by
  have h2 : (main wGood 3 initSt).2 =
      MainOut.finished [{ itemCpp with judge_result := "Accepted" },
        { itemNoCode with judge_result := "Judge Failed" }] := by decide
  have hrun : main wGood 3 initSt = ((main wGood 3 initSt).1,
      MainOut.finished [{ itemCpp with judge_result := "Accepted" },
        { itemNoCode with judge_result := "Judge Failed" }]) := by
    rw [← h2]
  have h := finalize_output_shape wGood 3 [itemCpp, itemNoCode]
    (main wGood 3 initSt).1
    [{ itemCpp with judge_result := "Accepted" },
      { itemNoCode with judge_result := "Judge Failed" }] rfl hrun
  exact ⟨h.1, h.2.1⟩

/-- C2 (amended): provided every token fetch and every status/log call
succeeds and the run does not hang in the poll loop, the `"running"`
status is PUT exactly once when the input fetch parses — and never when
the run dies before that point — and exactly one terminal status
(`"finished"` or `"failed"`) is PUT at the end of the run. -/
theorem run_status_reports (w : World) (fuel : Nat)
    (Htok : ∀ n, (w.tokenFetch n).isSome = true)
    (Hstat : ∀ n, w.statusOk n = true)
    (Hlog : ∀ n, w.logOk n = true)
    (Hng : (topLevel w fuel).2 ≠ TopOut.hung) :
    count (isStatusV "running") (topLevel w fuel).1.trace
      = (if (w.inputBody).isSome then 1 else 0) ∧
    count (isStatusV "finished") (topLevel w fuel).1.trace
      + count (isStatusV "failed") (topLevel w fuel).1.trace = 1 := by
  obtain ⟨s1, out, hmain, hcnt, hnone, hfin⟩ := main_spec w fuel Htok Hstat
  have hrun1 : count (isStatusV "running") s1.trace
      = (if (w.inputBody).isSome then 1 else 0) := by
    have h := hcnt (isStatusV "running") (phaseQuiet_isStatusV "running")
    rw [h, isStatusV_self]
    simp
  have hfin1 : count (isStatusV "finished") s1.trace = 0 := by
    have h := hcnt (isStatusV "finished") (phaseQuiet_isStatusV "finished")
    rw [h, isStatusV_ne "finished" "running" (by decide)]
    simp
  have hfail1 : count (isStatusV "failed") s1.trace = 0 := by
    have h := hcnt (isStatusV "failed") (phaseQuiet_isStatusV "failed")
    rw [h, isStatusV_ne "failed" "running" (by decide)]
    simp
  cases out with
  | hung =>
    have htop : topLevel w fuel = (s1, TopOut.hung) := by
      simp only [topLevel, hmain]
    rw [htop] at Hng
    exact absurd rfl Hng
  | finished results =>
    have hsome : (w.inputBody).isSome = true := hfin results rfl
    obtain ⟨s6, d6, hus6, htr6, hd6, hlc6, hnow6, hfe6⟩ :=
      update_status_ok w "finished" s1 (Htok _) Hstat
    have htop : topLevel w fuel = (s6, TopOut.cleanExit) := by
      simp only [topLevel, hmain, hus6]
    rw [htop]
    constructor
    · rw [htr6]
      simp [count_append, count_single,
        count_token_delta (isStatusV "running") (fun _ => rfl) (fun _ => rfl) d6 hd6,
        isStatusV_ne "running" "finished" (by decide), hrun1]
    · rw [htr6]
      simp [count_append, count_single,
        count_token_delta (isStatusV "finished") (fun _ => rfl) (fun _ => rfl) d6 hd6,
        count_token_delta (isStatusV "failed") (fun _ => rfl) (fun _ => rfl) d6 hd6,
        isStatusV_self, isStatusV_ne "failed" "finished" (by decide),
        hfin1, hfail1]
  | raised e =>
    obtain ⟨s2, d1, d2, hhf, htr, hd1, hd2⟩ :=
      handleFailure_ok w e s1 (fun n _ => Htok n) Hlog Hstat
    have htop : topLevel w fuel = (s2, TopOut.cleanExit) := by
      simp only [topLevel, hmain]
      exact hhf
    rw [htop]
    constructor
    · rw [htr]
      simp [count_append, count_cons, count_nil, count_single,
        count_token_delta (isStatusV "running") (fun _ => rfl) (fun _ => rfl) d1 hd1,
        count_token_delta (isStatusV "running") (fun _ => rfl) (fun _ => rfl) d2 hd2,
        isStatusV_ne "running" "failed" (by decide), isStatusV, hrun1]
    · rw [htr]
      simp [count_append, count_cons, count_nil, count_single,
        count_token_delta (isStatusV "finished") (fun _ => rfl) (fun _ => rfl) d1 hd1,
        count_token_delta (isStatusV "finished") (fun _ => rfl) (fun _ => rfl) d2 hd2,
        count_token_delta (isStatusV "failed") (fun _ => rfl) (fun _ => rfl) d1 hd1,
        count_token_delta (isStatusV "failed") (fun _ => rfl) (fun _ => rfl) d2 hd2,
        isStatusV_self, isStatusV_ne "finished" "failed" (by decide),
        isStatusV, hfin1, hfail1]

/-- Counterexample to C2 as stated: with `wCred` the identity endpoint
fails on the very first call; the run still terminates cleanly with one
`"failed"` status, but no `"running"` status is ever reported — the start
status is not reported in every run. -/
theorem running_status_missing_cex :
    count (isStatusV "running") (topLevel wCred 2).1.trace = 0 ∧
    count (isStatusV "failed") (topLevel wCred 2).1.trace = 1 ∧
    (topLevel wCred 2).2 = TopOut.cleanExit := by
  decide

/-- Witness for C2 (amended): the healthy two-item run. -/
theorem run_status_reports_witness :
    count (isStatusV "running") (topLevel wGood 3).1.trace
      = (if (wGood.inputBody).isSome then 1 else 0) ∧
    count (isStatusV "finished") (topLevel wGood 3).1.trace
      + count (isStatusV "failed") (topLevel wGood 3).1.trace = 1 :=
  run_status_reports wGood 3 (fun _ => rfl) (fun _ => rfl) (fun _ => rfl)
    (by decide)

/-- C1 (amended): when a failure escapes the four phases, provided the
handler's own calls (its token fetches, the log POST and the status PUT)
succeed, the top-level handler appends exactly one log entry — whose text
embeds the error description and ends with the full traceback — and then,
as the very last effect of the run, reports status `"failed"`.  In the
scenario where the identity endpoint fails only on its first call, the run
aborts before any item is processed (no submit call, no poll call, no
`"running"` status), exactly one such log entry is appended and the status
is reported as `"failed"`. -/
theorem top_level_failure_handling (w : World) (fuel : Nat) :
    (∀ (s1 : St) (e : Err), main w fuel initSt = (s1, MainOut.raised e) →
      (∀ n, s1.fetches ≤ n → (w.tokenFetch n).isSome = true) →
      (∀ n, w.logOk n = true) → (∀ n, w.statusOk n = true) →
      ∃ s2, topLevel w fuel = (s2, TopOut.cleanExit) ∧
        count isLog s2.trace = 1 ∧
        count (isStatusV "failed") s2.trace = 1 ∧
        (∃ t1, s2.trace = t1 ++ [Event.statusPut "failed"] ∧
          Event.logPost (mkErrorLog w e) ∈ t1) ∧
        (∃ a b, mkErrorLog w e = a ++ errMsg e ++ b) ∧
        (∃ a, mkErrorLog w e = a ++ w.tracebackOf (errMsg e))) ∧
    (w.tokenFetch 0 = none →
      (∀ n, 1 ≤ n → (w.tokenFetch n).isSome = true) →
      (∀ n, w.logOk n = true) → (∀ n, w.statusOk n = true) →
      ∃ s2, topLevel w fuel = (s2, TopOut.cleanExit) ∧
        count isSubmitEv s2.trace = 0 ∧
        count isPollEv s2.trace = 0 ∧
        count (isStatusV "running") s2.trace = 0 ∧
        count isLog s2.trace = 1 ∧
        Event.logPost (mkErrorLog w Err.tokenFetchFailed) ∈ s2.trace ∧
        count (isStatusV "failed") s2.trace = 1) := by
  constructor
  · intro s1 e hmain Ht Hl Hs
    obtain ⟨s2, d1, d2, hhf, htr, hd1, hd2⟩ := handleFailure_ok w e s1 Ht Hl Hs
    have htop : topLevel w fuel = (s2, TopOut.cleanExit) := by
      simp only [topLevel, hmain]
      exact hhf
    have hlog1 : count isLog s1.trace = 0 := by
      have h := count_main w fuel initSt isLog phaseQuiet_isLog rfl
      rw [hmain] at h
      simpa [initSt, count_nil] using h
    have hfail1 : count (isStatusV "failed") s1.trace = 0 := by
      have h := count_main w fuel initSt (isStatusV "failed")
        (phaseQuiet_isStatusV "failed") (isStatusV_ne "failed" "running" (by decide))
      rw [hmain] at h
      simpa [initSt, count_nil] using h
    refine ⟨s2, htop, ?_, ?_, ?_, ?_, ?_⟩
    · rw [htr]
      simp [count_append, count_cons, count_nil, count_single,
        count_token_delta isLog (fun _ => rfl) (fun _ => rfl) d1 hd1,
        count_token_delta isLog (fun _ => rfl) (fun _ => rfl) d2 hd2,
        isLog, hlog1]
    · rw [htr]
      simp [count_append, count_cons, count_nil, count_single,
        count_token_delta (isStatusV "failed") (fun _ => rfl) (fun _ => rfl) d1 hd1,
        count_token_delta (isStatusV "failed") (fun _ => rfl) (fun _ => rfl) d2 hd2,
        isStatusV_self, isStatusV, hfail1]
    · refine ⟨s1.trace ++ d1 ++ [Event.logPost (mkErrorLog w e)] ++ d2, htr, ?_⟩
      simp
    · refine ⟨"Python error: ", ", Traceback: " ++ w.tracebackOf (errMsg e), ?_⟩
      simp [mkErrorLog, String.append_assoc]
    · exact ⟨"Python error: " ++ errMsg e ++ ", Traceback: ", rfl⟩
  · intro hz Ht1 Hl Hs
    have hmain : main w fuel initSt =
        ({ token := none, now := 0, fetches := 1, statusCalls := 0,
           logCalls := 0, trace := [Event.tokenFetchAttempt 0] },
         MainOut.raised Err.tokenFetchFailed) := by
      simp [main, prepare_inputs, get_oidc_token, fetchToken, initSt, hz]
    obtain ⟨s2, d1, d2, hhf, htr, hd1, hd2⟩ :=
      handleFailure_ok w Err.tokenFetchFailed
        { token := none, now := 0, fetches := 1, statusCalls := 0,
          logCalls := 0, trace := [Event.tokenFetchAttempt 0] }
        (fun n hn => Ht1 n hn) Hl Hs
    have htop : topLevel w fuel = (s2, TopOut.cleanExit) := by
      simp only [topLevel, hmain]
      exact hhf
    refine ⟨s2, htop, ?_, ?_, ?_, ?_, ?_, ?_⟩
    · rw [htr]
      simp [count_append, count_cons, count_nil, count_single,
        count_token_delta isSubmitEv (fun _ => rfl) (fun _ => rfl) d1 hd1,
        count_token_delta isSubmitEv (fun _ => rfl) (fun _ => rfl) d2 hd2,
        isSubmitEv]
    · rw [htr]
      simp [count_append, count_cons, count_nil, count_single,
        count_token_delta isPollEv (fun _ => rfl) (fun _ => rfl) d1 hd1,
        count_token_delta isPollEv (fun _ => rfl) (fun _ => rfl) d2 hd2,
        isPollEv]
    · rw [htr]
      simp [count_append, count_cons, count_nil, count_single,
        count_token_delta (isStatusV "running") (fun _ => rfl) (fun _ => rfl) d1 hd1,
        count_token_delta (isStatusV "running") (fun _ => rfl) (fun _ => rfl) d2 hd2,
        isStatusV_ne "running" "failed" (by decide), isStatusV]
    · rw [htr]
      simp [count_append, count_cons, count_nil, count_single,
        count_token_delta isLog (fun _ => rfl) (fun _ => rfl) d1 hd1,
        count_token_delta isLog (fun _ => rfl) (fun _ => rfl) d2 hd2,
        isLog]
    · rw [htr]
      simp
    · rw [htr]
      simp [count_append, count_cons, count_nil, count_single,
        count_token_delta (isStatusV "failed") (fun _ => rfl) (fun _ => rfl) d1 hd1,
        count_token_delta (isStatusV "failed") (fun _ => rfl) (fun _ => rfl) d2 hd2,
        isStatusV_self, isStatusV]

/-- Counterexample to C1 as stated: when the identity endpoint fails on
every call, the failure escaping `main` leaves the handler unable to
append any log entry or report any status — the process crashes with zero
log entries and zero status reports. -/
theorem handler_secondary_failure_cex :
    count isLog (topLevel wAllFail 2).1.trace = 0 ∧
    count (isStatusV "failed") (topLevel wAllFail 2).1.trace = 0 ∧
    (topLevel wAllFail 2).2 = TopOut.crashed Err.tokenFetchFailed := by
  decide

/-- Witness for C1 (amended): an unparseable input body (handler healthy)
for the general part, and a first-call-only credential failure for the
scenario part. -/
theorem top_level_failure_handling_witness :
    (∃ s2, topLevel wNoJson 2 = (s2, TopOut.cleanExit) ∧
      count isLog s2.trace = 1 ∧
      count (isStatusV "failed") s2.trace = 1 ∧
      (∃ t1, s2.trace = t1 ++ [Event.statusPut "failed"] ∧
        Event.logPost (mkErrorLog wNoJson Err.inputJsonFailed) ∈ t1) ∧
      (∃ a b, mkErrorLog wNoJson Err.inputJsonFailed
        = a ++ errMsg Err.inputJsonFailed ++ b) ∧
      (∃ a, mkErrorLog wNoJson Err.inputJsonFailed
        = a ++ wNoJson.tracebackOf (errMsg Err.inputJsonFailed))) ∧
    (∃ s2, topLevel wCred 2 = (s2, TopOut.cleanExit) ∧
      count isSubmitEv s2.trace = 0 ∧
      count isPollEv s2.trace = 0 ∧
      count (isStatusV "running") s2.trace = 0 ∧
      count isLog s2.trace = 1 ∧
      Event.logPost (mkErrorLog wCred Err.tokenFetchFailed) ∈ s2.trace ∧
      count (isStatusV "failed") s2.trace = 1) := by
  constructor
  · have h2 : (main wNoJson 2 initSt).2 = MainOut.raised Err.inputJsonFailed := by
      decide
    have hmain : main wNoJson 2 initSt =
        ((main wNoJson 2 initSt).1, MainOut.raised Err.inputJsonFailed) := by
      rw [← h2]
    exact (top_level_failure_handling wNoJson 2).1 (main wNoJson 2 initSt).1
      Err.inputJsonFailed hmain (fun n _ => rfl) (fun _ => rfl) (fun _ => rfl)
  · refine (top_level_failure_handling wCred 2).2 rfl ?_ (fun _ => rfl)
      (fun _ => rfl)
    intro n hn
    have hne : (n == 0) = false := beq_eq_false_iff_ne.mpr (by omega)
    have hv : wCred.tokenFetch n = some 100000 := by
      show (if (n == 0) = true then none else some 100000) = some 100000
      rw [hne]
      rfl
    rw [hv]
    rfl

end StandardJudge
